import Mathlib

/-!
Verification development for the IGOR binary wave reader
(`igor/binarywave.py`).  The Python source is shallowly embedded:

* machine integers are modelled as `Int`/`Nat` with explicit two's-complement
  conversions at the byte boundary;
* `struct.Struct` pack/unpack becomes explicit byte-list encoding driven by
  the same per-field format characters (`h`, `l`, `L`, `c`, `d`, `f`, `P`);
* IEEE-float fields (`d`, `f`) are carried as their raw bit patterns (the
  decoder never interprets a float value, it only moves the bytes);
* Python exceptions become an `Except Err` result;
* `file.read` becomes consumption of a byte list (short reads at EOF return
  fewer bytes without an error, exactly like Python's `read`).
-/

namespace Igor

/-- Byte order resolved to a concrete machine order (`sys.byteorder` makes the
native order one of these two). -/
inductive ByteOrder where
  | little
  | big
  deriving DecidableEq, Repr

/-- The order opposite to the given one. -/
def ByteOrder.opposite : ByteOrder → ByteOrder
  | .little => .big
  | .big => .little

/-- Python exceptions raised by the source, by class. -/
inductive Err where
  | structError
  | valueError (msg : String)
  | assertionError (msg : String)
  | keyError (key : String)
  | typeError (msg : String)
  deriving DecidableEq, Repr

/-- Values stored in the `bin_info` / `wave_info` dictionaries. -/
inductive PyVal where
  | int (v : Int)
  | ints (vs : List Int)
  | str (s : String)
  | strs (ss : List String)
  | strss (sss : List (List String))
  | bytes (bs : List Nat)
  deriving DecidableEq, Repr

/-- A Python dictionary with string keys, as an association list. -/
abbrev AList : Type := List (String × PyVal)

/-- Dictionary lookup (`d[k]` as an `Option`). -/
def dictGet (d : AList) (k : String) : Option PyVal :=
  (d.find? (fun p => p.1 = k)).map (fun p => p.2)

/-- Dictionary assignment `d[k] = v`: replace the binding in place or
append a new one.  (Python dict keys are unique, so replacing the first
occurrence is exact.) -/
def dictSet (d : AList) (k : String) (v : PyVal) : AList :=
  match d with
  | [] => [(k, v)]
  | (k', v') :: rest => if k' = k then (k, v) :: rest else (k', v') :: dictSet rest k v

/-- Lookup that must produce an integer; a missing key is Python's
`KeyError`, a wrongly-typed value a `TypeError`. -/
def dictGetInt (d : AList) (k : String) : Except Err Int :=
  match dictGet d k with
  | some (.int v) => .ok v
  | some _ => .error (.typeError k)
  | none => .error (.keyError k)

/-- Lookup that must produce an integer array. -/
def dictGetInts (d : AList) (k : String) : Except Err (List Int) :=
  match dictGet d k with
  | some (.ints vs) => .ok vs
  | some _ => .error (.typeError k)
  | none => .error (.keyError k)

/-- Lookup that must produce a raw byte string. -/
def dictGetBytes (d : AList) (k : String) : Except Err (List Nat) :=
  match dictGet d k with
  | some (.bytes bs) => .ok bs
  | some _ => .error (.typeError k)
  | none => .error (.keyError k)

/-! ### Byte-level primitives -/

/-- Little-endian byte list (length `w`) of a natural number. -/
def toBytesLE : Nat → Nat → List Nat
  | 0, _ => []
  | w + 1, n => n % 256 :: toBytesLE w (n / 256)

/-- Natural number denoted by a little-endian byte list. -/
def fromBytesLE : List Nat → Nat
  | [] => 0
  | b :: rest => b + 256 * fromBytesLE rest

/-- Encode `n` on `w` bytes in the given byte order. -/
def natToBytes (bo : ByteOrder) (w : Nat) (n : Nat) : List Nat :=
  match bo with
  | .little => toBytesLE w n
  | .big => (toBytesLE w n).reverse

/-- Decode a byte list in the given byte order. -/
def bytesToNat (bo : ByteOrder) (bs : List Nat) : Nat :=
  match bo with
  | .little => fromBytesLE bs
  | .big => fromBytesLE bs.reverse

/-- Reinterpret an unsigned value of `bits` bits as two's-complement signed. -/
def toSigned (bits : Nat) (u : Nat) : Int :=
  if u < 2 ^ (bits - 1) then (u : Int) else (u : Int) - 2 ^ bits

/-- Read one signed 16-bit integer from two bytes in the given byte order
(the `numpy.dtype(byte_order+'h')` view used by `checksum`). -/
def readInt16 (bo : ByteOrder) (b0 b1 : Nat) : Int :=
  toSigned 16 (bytesToNat bo [b0, b1])

/-- Signed value of one byte reinterpreted as numpy `int8`. -/
def toInt8 (b : Nat) : Int :=
  toSigned 8 b

/-! ### The record descriptor engine (`Field` / `Structure`) -/

/-- A `struct` format character.  `set_byte_order` replaces `P` by `L`
(`format.replace('P', 'L')`), so `P` behaves exactly like `L` below. -/
inductive Fmt where
  | h  -- signed 16-bit
  | l  -- signed 32-bit
  | L  -- unsigned 32-bit
  | c  -- one raw byte (a length-1 string in Python)
  | d  -- 64-bit IEEE double, carried as its raw bit pattern
  | f  -- 32-bit IEEE float, carried as its raw bit pattern
  | P  -- pointer; packed as `L` after the `replace('P', 'L')`
  deriving DecidableEq, Repr

/-- Packed byte size of one element (standard sizes, no alignment: the
format strings all start with `=`, `<` or `>`). -/
def fmtSize : Fmt → Nat
  | .h => 2
  | .l => 4
  | .L => 4
  | .c => 1
  | .d => 8
  | .f => 4
  | .P => 4

/-- Whether the format is a signed integer format. -/
def fmtSigned : Fmt → Bool
  | .h => true
  | .l => true
  | _ => false

/-- A structure field: format, name, default used on pack, element count.
`count` is the flattened total count (`numpy.prod` of the declared shape);
only the total matters for packing and for every use in the decoder. -/
structure Field where
  format : Fmt
  name : String
  dfault : Option Int
  count : Nat
  deriving DecidableEq, Repr

/-- `Field.__init__`.  NOTE: the source (binarywave.py line 50) assigns
`self.default = None`, ignoring the `default` argument, so the declared
default is dropped; this constructor reproduces that faithfully. -/
def Field.init (format : Fmt) (name : String) (dfault : Option Int)
    (count : Nat) : Field :=
  { format := format, name := name, dfault := none, count := count }

/-- A C structure: a name and an ordered field list.  The byte order is
passed to each (un)pack operation instead of being mutable state
(`set_byte_order` only rebuilds the format string; sizes never change). -/
structure Structure where
  name : String
  fields : List Field
  deriving DecidableEq, Repr

/-- The flattened element format list (each field's format repeated
`total_count` times), as built by `set_byte_order`. -/
def structFmts (s : Structure) : List Fmt :=
  s.fields.flatMap (fun f => List.replicate f.count f.format)

/-- Packed byte size of a format list. -/
def fmtsSize (fmts : List Fmt) : Nat :=
  (fmts.map fmtSize).sum

/-- `struct.Struct.size` for the structure. -/
def structSize (s : Structure) : Nat :=
  fmtsSize (structFmts s)

/-- Range of values accepted by `struct.pack` for one element.  Integer
formats use their signed/unsigned machine range; float formats accept any
bit pattern of their width (the bit-pattern model of floats). -/
def inRange (fmt : Fmt) (v : Int) : Prop :=
  if fmtSigned fmt then
    -(2 ^ (8 * fmtSize fmt - 1)) ≤ v ∧ v < 2 ^ (8 * fmtSize fmt - 1)
  else
    0 ≤ v ∧ v < 2 ^ (8 * fmtSize fmt)

instance (fmt : Fmt) (v : Int) : Decidable (inRange fmt v) := by
  unfold inRange
  exact inferInstanceAs (Decidable _)

/-- Encode one element; out-of-range values raise `struct.error`. -/
def encodeElem (bo : ByteOrder) (fmt : Fmt) (v : Int) : Except Err (List Nat) :=
  if inRange fmt v then
    if fmtSigned fmt then
      .ok (natToBytes bo (fmtSize fmt) (v % (2 ^ (8 * fmtSize fmt))).toNat)
    else
      .ok (natToBytes bo (fmtSize fmt) v.toNat)
  else
    .error .structError

/-- Decode one element from its first `fmtSize fmt` bytes. -/
def decodeElem (bo : ByteOrder) (fmt : Fmt) (bs : List Nat) : Int :=
  let u := bytesToNat bo (bs.take (fmtSize fmt))
  if fmtSigned fmt then toSigned (8 * fmtSize fmt) u else (u : Int)

/-- Pack a flat value list against a flat format list (`struct.Struct.pack`);
a length mismatch or out-of-range value raises `struct.error`. -/
def packFlat (bo : ByteOrder) : List Fmt → List Int → Except Err (List Nat)
  | [], [] => .ok []
  | fmt :: fmts, v :: vs => do
    let b ← encodeElem bo fmt v
    let rest ← packFlat bo fmts vs
    .ok (b ++ rest)
  | _, _ => .error .structError

/-- Decode a flat value list from bytes (callers establish the length). -/
def decodeFlat (bo : ByteOrder) : List Fmt → List Nat → List Int
  | [], _ => []
  | fmt :: fmts, bs => decodeElem bo fmt bs :: decodeFlat bo fmts (bs.drop (fmtSize fmt))

/-- `_flatten_args`: spread each field's value into flat elements.  The
`zip(args, self.fields)` truncates at the shorter list exactly as in
Python.  Ill-typed values (a scalar where the field repeats, …) would be
Python `TypeError`s; they are given harmless flattenings here and are
excluded by `argsMatch` in every theorem. -/
def flattenArgs : List PyVal → List Field → List Int
  | a :: args, fld :: fs =>
    (if fld.count > 1 then
      (match a with
       | .ints l => l
       | .int v => [v]
       | _ => [])
     else
      [match a with
       | .int v => v
       | _ => 0]) ++ flattenArgs args fs
  | _, _ => []

/-- `_unflatten_args`: regroup flat elements by field; a field with
`total_count > 1` becomes an array value, otherwise a scalar. -/
def unflattenArgs : List Field → List Int → List PyVal
  | [], _ => []
  | fld :: fs, vs =>
    (if fld.count > 1 then PyVal.ints (vs.take fld.count)
     else PyVal.int (vs.headD 0)) :: unflattenArgs fs (vs.drop fld.count)

/-- `Structure.pack` (binarywave.py lines 148-149). -/
def Structure.pack (s : Structure) (bo : ByteOrder) (args : List PyVal) :
    Except Err (List Nat) :=
  packFlat bo (structFmts s) (flattenArgs args s.fields)

/-- `struct.Struct.unpack`: requires the string length to equal the packed
size exactly. -/
def Structure.unpack (s : Structure) (bo : ByteOrder) (bs : List Nat) :
    Except Err (List PyVal) :=
  if bs.length = structSize s then
    .ok (unflattenArgs s.fields (decodeFlat bo (structFmts s) bs))
  else
    .error .structError

/-- `struct.Struct.unpack_from` composed with `_unflatten_args`: needs at
least `size` bytes from `offset` on, otherwise `struct.error`. -/
def structUnpackFromRaw (s : Structure) (bo : ByteOrder) (buffer : List Nat)
    (offset : Nat) : Except Err (List PyVal) :=
  if buffer.length < offset + structSize s then
    .error .structError
  else
    .ok (unflattenArgs s.fields (decodeFlat bo (structFmts s) (buffer.drop offset)))

/-- Field names in order. -/
def structNames (s : Structure) : List String :=
  s.fields.map (fun f => f.name)

/-- `dict(zip(names, args))`. -/
def structDict (s : Structure) (args : List PyVal) : AList :=
  (structNames s).zip args

/-- `Structure.unpack_from` (binarywave.py lines 177-195), with the
wave-header relaxation: on a short buffer, a structure named `WaveHeader2`
or `WaveHeader5` is padded with zero bytes, unpacked again, and the decoded
`npnts` is asserted to be zero. -/
def Structure.unpack_from (s : Structure) (bo : ByteOrder) (buffer : List Nat)
    (offset : Nat) : Except Err (List PyVal) :=
  match structUnpackFromRaw s bo buffer offset with
  | .ok args => .ok args
  | .error e =>
    if s.name ≠ "WaveHeader2" ∧ s.name ≠ "WaveHeader5" then
      .error e
    else
      let buffer :=
        if buffer.length < offset + structSize s then
          buffer ++ List.replicate (structSize s + offset - buffer.length) 0
        else
          buffer
      match structUnpackFromRaw s bo buffer offset with
      | .error e' => .error e'
      | .ok args =>
        match dictGet (structDict s args) "npnts" with
        | some (.int n) =>
          if n = 0 then .ok args else .error (.assertionError (toString n))
        | some _ => .error (.assertionError "npnts")
        | none => .error (.keyError "npnts")

/-- `Structure.unpack_dict_from`. -/
def Structure.unpack_dict_from (s : Structure) (bo : ByteOrder)
    (buffer : List Nat) (offset : Nat) : Except Err AList := do
  let args ← s.unpack_from bo buffer offset
  .ok (structDict s args)

/-- `Structure._clean_dict`: substitute defaults for missing fields, raise
`ValueError` when a missing field has no default.  The message names the
field and `self.__class__.__name__`, which is always `Structure`. -/
def cleanDict : List Field → AList → Except Err AList
  | [], d => .ok d
  | f :: fs, d =>
    match dictGet d f.name with
    | some _ => cleanDict fs d
    | none =>
      match f.dfault with
      | some v => cleanDict fs (dictSet d f.name (.int v))
      | none => .error (.valueError (f.name ++ " field not set for Structure"))

/-- `Structure.pack_dict`. -/
def Structure.pack_dict (s : Structure) (bo : ByteOrder) (d : AList) :
    Except Err (List Nat) := do
  let d ← cleanDict s.fields d
  let args ← s.fields.mapM (fun f =>
    match dictGet d f.name with
    | some v => Except.ok v
    | none => Except.error (Err.keyError f.name))
  s.pack bo args

/-! ### IGOR constants and typedefs from IgorBin.h -/

/-- `MAXDIMS` from wave.h. -/
def MAXDIMS : Nat := 4

/-- `BinHeaderCommon` (the minimal common header: just the version). -/
def BinHeaderCommon : Structure :=
  { name := "BinHeaderCommon",
    fields := [Field.init .h "version" none 1] }

/-- `BinHeader1`. -/
def BinHeader1 : Structure :=
  { name := "BinHeader1",
    fields := [
      Field.init .h "version" none 1,
      Field.init .l "wfmSize" none 1,
      Field.init .h "checksum" none 1] }

/-- `BinHeader2`. -/
def BinHeader2 : Structure :=
  { name := "BinHeader2",
    fields := [
      Field.init .h "version" none 1,
      Field.init .l "wfmSize" none 1,
      Field.init .l "noteSize" none 1,
      Field.init .l "pictSize" (some 0) 1,
      Field.init .h "checksum" none 1] }

/-- `BinHeader3`.  Note `wfmSize` is an `h` here, as in the source. -/
def BinHeader3 : Structure :=
  { name := "BinHeader3",
    fields := [
      Field.init .h "version" none 1,
      Field.init .h "wfmSize" none 1,
      Field.init .l "noteSize" none 1,
      Field.init .l "formulaSize" none 1,
      Field.init .l "pictSize" (some 0) 1,
      Field.init .h "checksum" none 1] }

/-- `BinHeader5`. -/
def BinHeader5 : Structure :=
  { name := "BinHeader5",
    fields := [
      Field.init .h "version" none 1,
      Field.init .h "checksum" none 1,
      Field.init .l "wfmSize" none 1,
      Field.init .l "formulaSize" none 1,
      Field.init .l "noteSize" none 1,
      Field.init .l "dataEUnitsSize" none 1,
      Field.init .l "dimEUnitsSize" none MAXDIMS,
      Field.init .l "dimLabelsSize" none MAXDIMS,
      Field.init .l "sIndicesSize" none 1,
      Field.init .l "optionsSize1" (some 0) 1,
      Field.init .l "optionsSize2" (some 0) 1] }

/-- `MAX_WAVE_NAME2`. -/
def MAX_WAVE_NAME2 : Nat := 18

/-- `MAX_WAVE_NAME5`. -/
def MAX_WAVE_NAME5 : Nat := 31

/-- `MAX_UNIT_CHARS`. -/
def MAX_UNIT_CHARS : Nat := 3

/-- `WaveHeader2`.  `count` values are the flattened totals. -/
def WaveHeader2 : Structure :=
  { name := "WaveHeader2",
    fields := [
      Field.init .h "type" none 1,
      Field.init .P "next" (some 0) 1,
      Field.init .c "bname" none (MAX_WAVE_NAME2 + 2),
      Field.init .h "whVersion" (some 0) 1,
      Field.init .h "srcFldr" (some 0) 1,
      Field.init .P "fileName" (some 0) 1,
      Field.init .c "dataUnits" (some 0) (MAX_UNIT_CHARS + 1),
      Field.init .c "xUnits" (some 0) (MAX_UNIT_CHARS + 1),
      Field.init .l "npnts" none 1,
      Field.init .h "aModified" (some 0) 1,
      Field.init .d "hsA" none 1,
      Field.init .d "hsB" none 1,
      Field.init .h "wModified" (some 0) 1,
      Field.init .h "swModified" (some 0) 1,
      Field.init .h "fsValid" none 1,
      Field.init .d "topFullScale" none 1,
      Field.init .d "botFullScale" none 1,
      Field.init .c "useBits" (some 0) 1,
      Field.init .c "kindBits" (some 0) 1,
      Field.init .P "formula" (some 0) 1,
      Field.init .l "depID" (some 0) 1,
      Field.init .L "creationDate" none 1,
      Field.init .c "wUnused" (some 0) 2,
      Field.init .L "modDate" none 1,
      Field.init .P "waveNoteH" none 1,
      Field.init .f "wData" none 4] }

/-- `WaveHeader5`.  `dimUnits` has declared shape `(MAXDIMS, 4)`, total 16. -/
def WaveHeader5 : Structure :=
  { name := "WaveHeader5",
    fields := [
      Field.init .P "next" none 1,
      Field.init .L "creationDate" none 1,
      Field.init .L "modDate" none 1,
      Field.init .l "npnts" none 1,
      Field.init .h "type" none 1,
      Field.init .h "dLock" (some 0) 1,
      Field.init .c "whpad1" (some 0) 6,
      Field.init .h "whVersion" (some 1) 1,
      Field.init .c "bname" none (MAX_WAVE_NAME5 + 1),
      Field.init .l "whpad2" (some 0) 1,
      Field.init .P "dFolder" (some 0) 1,
      Field.init .l "nDim" none MAXDIMS,
      Field.init .d "sfA" none MAXDIMS,
      Field.init .d "sfB" none MAXDIMS,
      Field.init .c "dataUnits" (some 0) (MAX_UNIT_CHARS + 1),
      Field.init .c "dimUnits" (some 0) (MAXDIMS * (MAX_UNIT_CHARS + 1)),
      Field.init .h "fsValid" none 1,
      Field.init .h "whpad3" (some 0) 1,
      Field.init .d "topFullScale" none 1,
      Field.init .d "botFullScale" none 1,
      Field.init .P "dataEUnits" (some 0) 1,
      Field.init .P "dimEUnits" (some 0) MAXDIMS,
      Field.init .P "dimLabels" (some 0) MAXDIMS,
      Field.init .P "waveNoteH" (some 0) 1,
      Field.init .l "whUnused" (some 0) 16,
      Field.init .h "aModified" (some 0) 1,
      Field.init .h "wModified" (some 0) 1,
      Field.init .h "swModified" (some 0) 1,
      Field.init .c "useBits" (some 0) 1,
      Field.init .c "kindBits" (some 0) 1,
      Field.init .P "formula" (some 0) 1,
      Field.init .l "depID" (some 0) 1,
      Field.init .h "whpad4" (some 0) 1,
      Field.init .h "srcFldr" (some 0) 1,
      Field.init .P "fileName" (some 0) 1,
      Field.init .P "sIndices" (some 0) 1,
      Field.init .f "wData" none 1] }

/-- `TYPE_TABLE` from IgorMath.h, mapping a type code to the numpy dtype's
item size in bytes.  Code 0 maps to `None` in the source; `numpy.dtype(None)`
is `float64` (8 bytes), though that entry is unreachable because type 0
takes the text branch before the table is consulted. -/
def TYPE_TABLE : Int → Option Nat
  | 0 => some 8
  | 1 => some 16    -- numpy.complex == complex128
  | 2 => some 4     -- float32
  | 3 => some 8     -- complex64
  | 4 => some 8     -- float64
  | 5 => some 16    -- complex128
  | 8 => some 1     -- int8
  | 9 => some 2     -- complexInt8
  | 0x10 => some 2  -- int16
  | 0x11 => some 4  -- complexInt16
  | 0x20 => some 4  -- int32
  | 0x21 => some 8  -- complexInt32
  | 0x48 => some 1  -- uint8
  | 0x49 => some 2  -- complexUInt8
  | 0x50 => some 2  -- uint16
  | 0x51 => some 4  -- complexUInt16
  | 0x60 => some 4  -- uint32
  | 0x61 => some 8  -- complexUInt32
  | _ => none

/-! ### Functions from ReadWave.c -/

/-- `need_to_reorder_bytes` (binarywave.py lines 394-399).  Python's
`version & 0xFF` equals `version % 256` (with `%` the nonnegative
Euclidean remainder) for every int, which is `Int.emod` here. -/
def need_to_reorder_bytes (version : Int) : Bool :=
  version % 256 = 0

/-- `byte_order` (binarywave.py lines 401-407); `sys.byteorder` is the
`native` parameter. -/
def byte_order (native : ByteOrder) (needToReorderBytes : Bool) : ByteOrder :=
  let littleEndian := native = ByteOrder.little
  let littleEndian := if needToReorderBytes then ¬littleEndian else littleEndian
  if littleEndian then .little else .big

/-- The `ValueError` message raised for an unrecognized version. -/
def versionErrMsg (version : Int) : String :=
  "This does not appear to be a valid Igor binary wave file. " ++
    "The version field = " ++ toString version ++ ".\n"

/-- `version_structs` (binarywave.py lines 409-431).  `set_byte_order` is a
no-op in this embedding (byte order is a parameter of each operation), so
the `byte_order` argument is kept but unused. -/
def version_structs (version : Int) (byteOrder : ByteOrder) :
    Except Err (Structure × Structure × Nat) :=
  let _ := byteOrder
  if version = 1 then
    .ok (BinHeader1, WaveHeader2, structSize BinHeader1 + structSize WaveHeader2)
  else if version = 2 then
    .ok (BinHeader2, WaveHeader2, structSize BinHeader2 + structSize WaveHeader2)
  else if version = 3 then
    .ok (BinHeader3, WaveHeader2, structSize BinHeader3 + structSize WaveHeader2)
  else if version = 5 then
    -- Version 5 checksum does not include the wData field.
    .ok (BinHeader5, WaveHeader5,
      structSize BinHeader5 + structSize WaveHeader5 - 4)
  else
    .error (.valueError (versionErrMsg version))

/-- The consecutive signed 16-bit windows of a byte list (the
`numpy.ndarray((numbytes/2,), dtype=byte_order+'h', buffer=...)` view);
a trailing odd byte yields no window. -/
def toInt16Windows (bo : ByteOrder) : List Nat → List Int
  | b0 :: b1 :: rest => readInt16 bo b0 b1 :: toInt16Windows bo rest
  | _ => []

/-- Python's `x & 0xffff` on an arbitrary int is `x % 65536` with a
nonnegative remainder. -/
def pyMask16 (x : Int) : Int :=
  x % 65536

/-- The `if oldcksum > 2**31` block of `checksum` ("fake the C
implementation's int rollover"). -/
def cRollover (oldcksum : Int) : Int :=
  if oldcksum > 2 ^ 31 then
    let oldcksum := oldcksum % 2 ^ 32
    if oldcksum > 2 ^ 31 then oldcksum - 2 ^ 31 else oldcksum
  else oldcksum

/-- `checksum` (binarywave.py lines 433-443).  The numpy view fails with a
`TypeError` when the buffer holds fewer than `2*(numbytes/2)` bytes. -/
def checksum (buffer : List Nat) (byteOrder : ByteOrder) (oldcksum : Int)
    (numbytes : Nat) : Except Err Int :=
  if buffer.length < 2 * (numbytes / 2) then
    .error (.typeError "buffer is too small for requested array")
  else
    .ok (pyMask16 (cRollover (oldcksum +
      (toInt16Windows byteOrder (buffer.take (2 * (numbytes / 2)))).sum)))

/-- One byte as two lowercase hex digits. -/
def hexByte (b : Nat) : String :=
  let digit := fun n =>
    if n < 10 then Char.ofNat (48 + n) else Char.ofNat (97 + n - 10)
  String.mk [digit (b / 16 % 16), digit (b % 16)]

/-- `hex_bytes(buffer, spaces=1)`, the only call pattern used on the decode
path (inside `assert_null`). -/
def hex_bytes1 (buffer : List Nat) : String :=
  String.intercalate " " (buffer.map hexByte)

/-- Maximum of a byte list (Python `ord(max(buffer))`; only evaluated on a
nonempty buffer). -/
def pyMaxByte (buffer : List Nat) : Nat :=
  buffer.foldl Nat.max 0

/-- `assert_null` (binarywave.py lines 468-489).  Returns the list of
warnings written to stderr (empty or a singleton). -/
def assert_null (buffer : List Nat) (strict : Bool) : Except Err (List String) :=
  if buffer.length ≠ 0 ∧ pyMaxByte buffer ≠ 0 then
    if strict then
      .error (.valueError (hex_bytes1 buffer))
    else
      .ok ["warning: post-data padding not zero: " ++ hex_bytes1 buffer ++ "\n"]
  else
    .ok []

/-! ### The decode pipeline (`loadibw`) -/

/-- `f.read(n)` on a byte stream: returns up to `n` bytes (fewer at EOF,
never an error); a negative `n` reads everything remaining.  Result:
(bytes read, rest of the stream). -/
def pyRead (n : Int) (f : List Nat) : List Nat × List Nat :=
  if n < 0 then (f, []) else (f.take n.toNat, f.drop n.toNat)

/-- Python 2 string whitespace (`str.strip` default set). -/
def pyIsSpace (b : Nat) : Bool :=
  b = 32 ∨ b = 9 ∨ b = 10 ∨ b = 13 ∨ b = 11 ∨ b = 12

/-- `str(...).strip()` on raw bytes, keeping the bytes as characters. -/
def pyStrip (bs : List Nat) : String :=
  String.mk (((bs.dropWhile pyIsSpace).reverse.dropWhile pyIsSpace).reverse.map
    Char.ofNat)

/-- Split a byte string on NUL bytes (`.split(chr(0))`), as strings. -/
def pySplitNull (bs : List Nat) : List String :=
  (bs.splitOn 0).map (fun part => String.mk (part.map Char.ofNat))

/-- `chr(x)`: valid for `0 ≤ x < 256` only; numpy `int8` values above 0x7F
are negative and make it raise `ValueError`. -/
def pyChr (x : Int) : Except Err Char :=
  if 0 ≤ x ∧ x < 256 then .ok (Char.ofNat x.toNat)
  else .error (.valueError "chr() arg not in range(256)")

/-- A numpy array: shape, element size, and the underlying buffer bytes. -/
structure NdArray where
  shape : List Int
  itemsize : Nat
  data : List Nat
  deriving DecidableEq, Repr

/-- Product of a shape. -/
def shapeProd (shape : List Int) : Int :=
  shape.foldl (· * ·) 1

/-- `numpy.ndarray(shape=..., dtype=..., buffer=..., order='F')`: negative
dimensions raise `ValueError`, a buffer shorter than the array raises
`TypeError`. -/
def mkNdArray (shape : List Int) (itemsize : Nat) (buffer : List Nat) :
    Except Err NdArray :=
  if shape.any (fun n => n < 0) then
    .error (.valueError "negative dimensions are not allowed")
  else if (buffer.length : Int) < shapeProd shape * itemsize then
    .error (.typeError "buffer is too small for requested array")
  else
    .ok { shape := shape, itemsize := itemsize, data := buffer }

/-- The version-5 shape expression
`[n for n in wave_info['nDim'] if n > 0] or (0,)` (binarywave.py lines
530 and 634): it keeps every positive extent, wherever it sits. -/
def pyShapeFilter (nDim : List Int) : List Int :=
  let l := nDim.filter (fun n => n > 0)
  if l = [] then [0] else l

/-- The text-wave splitting loop of `loadibw` (binarywave.py lines
623-632): `data` holds the payload as numpy `int8` values, `sIndices` the
index bytes. -/
def splitWaveStrings (data : List Int) (sIndices : List Nat) :
    Except Err (List String) :=
  go data 0 sIndices []
where
  /-- One iteration per index byte; `start` is the running start offset. -/
  go (data : List Int) (start : Nat) : List Nat → List String →
      Except Err (List String)
    | [], acc => .ok acc.reverse
    | offset :: rest, acc =>
      if offset > start then do
        let chars ← ((data.take offset).drop start).mapM pyChr
        go data offset rest (String.mk chars :: acc)
      else
        if offset = 0 then go data start rest acc
        else .error (.assertionError (toString offset))

/-- The result of `readVersion`: the resolved version, byte order, the
bytes read so far, and the rest of the stream. -/
structure VersionInfo where
  version : Int
  byteOrder : ByteOrder
  b0 : List Nat
  rest : List Nat
  deriving DecidableEq, Repr

/-- Lines 498-506 of `loadibw`: read the common header natively, detect the
byte order from the version's low byte, and re-decode the version with the
resolved order when needed. -/
def readVersion (native : ByteOrder) (file : List Nat) :
    Except Err VersionInfo := do
  let (b, f1) := pyRead (structSize BinHeaderCommon : Int) file
  let d ← BinHeaderCommon.unpack_dict_from native b 0
  let version ← dictGetInt d "version"
  let needToReorderBytes := need_to_reorder_bytes version
  let byteOrder := byte_order native needToReorderBytes
  let version ←
    if needToReorderBytes then do
      let d2 ← BinHeaderCommon.unpack_dict_from byteOrder b 0
      dictGetInt d2 "version"
    else
      pure version
  .ok { version := version, byteOrder := byteOrder, b0 := b, rest := f1 }

/-- The `ValueError` message for a nonzero checksum. -/
def checksumErrMsg (c : Int) : String :=
  "This does not appear to be a valid Igor binary wave file.  " ++
    "Error in checksum: should be 0, is " ++ toString c ++ "."

/-- Lines 511-514 of `loadibw`: a nonzero checksum is fatal. -/
def checksumGate (c : Int) : Except Err Unit :=
  if c ≠ 0 then .error (.valueError (checksumErrMsg c)) else .ok ()

/-- Lines 517-524 of `loadibw`: the wData tail size and the payload byte
count for the resolved version. -/
def tailSize (version : Int) (wfmSize : Int) (waveS : Structure) :
    Except Err (Nat × Int) :=
  if version = 1 ∨ version = 2 ∨ version = 3 then
    -- 16 = size of wData field in WaveHeader2 structure
    .ok (16, wfmSize - (structSize waveS : Int))
  else if version = 5 then
    -- 4 = size of wData field in WaveHeader5 structure
    .ok (4, wfmSize - ((structSize waveS : Int) - 4))
  else
    .error (.assertionError (toString version))

/-- Lines 529-532 of `loadibw`: the output shape before the text override. -/
def shapeStep (version : Int) (wave_info : AList) (npnts : Int) :
    Except Err (List Int) :=
  if version = 5 then do
    let nDim ← dictGetInts wave_info "nDim"
    .ok (pyShapeFilter nDim)
  else
    .ok [npnts]

/-- Lines 533-540 of `loadibw`: element type resolution; text waves use a
1-byte `int8` view of the whole payload, numeric waves check the declared
size against `npnts`. -/
def typeStep (typ waveDataSize npnts : Int) (shape0 : List Int) :
    Except Err (List Int × Nat) :=
  if typ = 0 then
    .ok ([waveDataSize], 1)
  else
    match TYPE_TABLE typ with
    | none => .error (.keyError (toString typ))
    | some itemsize =>
      if waveDataSize = npnts * (itemsize : Int) then
        .ok (shape0, itemsize)
      else
        .error (.assertionError
          (toString waveDataSize ++ ", " ++ toString npnts ++ ", " ++
            toString itemsize))

/-- Lines 541-551 of `loadibw`: materialize the data array.  For a nonzero
point count the last `tail` header bytes are recycled through
`array.array('f', ...)` (whose length must divide 4) and the rest of the
payload is read from the stream. -/
def dataStep (b f2 : List Nat) (tail : Nat) (waveDataSize npnts : Int)
    (shape1 : List Int) (itemsize : Nat) : Except Err (NdArray × List Nat) :=
  if npnts = 0 then do
    let arr ← mkNdArray shape1 itemsize []
    .ok (arr, f2)
  else
    let tailData := b.drop (b.length - tail)
    if tailData.length % 4 ≠ 0 then
      .error (.valueError "string length not a multiple of item size")
    else do
      let (readB, f3) := pyRead (waveDataSize - (tail : Int)) f2
      let arr ← mkNdArray shape1 itemsize (tailData ++ readB)
      .ok (arr, f3)

/-- Version-2 post-data section (binarywave.py lines 555-561): 16 bytes of
padding checked by `assert_null`, then the note. -/
def postData2 (strict : Bool) (bin_info : AList) (f : List Nat) :
    Except Err (AList × List String × List Nat) := do
  let (pad_b, f) := pyRead 16 f
  let warnings ← assert_null pad_b strict
  let noteSize ← dictGetInt bin_info "noteSize"
  let (note_b, f) := pyRead noteSize f
  .ok (dictSet bin_info "note" (.str (pyStrip note_b)), warnings, f)

/-- Version-3 post-data section (lines 562-577): padding, note, formula. -/
def postData3 (strict : Bool) (bin_info : AList) (f : List Nat) :
    Except Err (AList × List String × List Nat) := do
  let (pad_b, f) := pyRead 16 f
  let warnings ← assert_null pad_b strict
  let noteSize ← dictGetInt bin_info "noteSize"
  let (note_b, f) := pyRead noteSize f
  let bin_info := dictSet bin_info "note" (.str (pyStrip note_b))
  let formulaSize ← dictGetInt bin_info "formulaSize"
  let (formula_b, f) := pyRead formulaSize f
  .ok (dictSet bin_info "formula" (.str (pyStrip formula_b)), warnings, f)

/-- Read one string per size in the list, stripping each
(the `dimEUnits` comprehension). -/
def readEach (sizes : List Int) (f : List Nat) : List String × List Nat :=
  match sizes with
  | [] => ([], f)
  | n :: rest =>
    let (s, f) := pyRead n f
    let (ss, f) := readEach rest f
    (pyStrip s :: ss, f)

/-- Read one dimension-label set per size: each is split on NUL bytes and
empty pieces are dropped. -/
def readLabels (sizes : List Int) (f : List Nat) :
    List (List String) × List Nat :=
  match sizes with
  | [] => ([], f)
  | n :: rest =>
    let (s, f) := pyRead n f
    let labels := (pySplitNull s).filter (fun L => L.length > 0)
    let (ss, f) := readLabels rest f
    (labels :: ss, f)

/-- Version-5 post-data sections (lines 578-619): formula, note, extended
data units, extended dimension units, dimension labels, and — for text
waves only — the raw string indices. -/
def postData5 (typ : Int) (bin_info : AList) (f : List Nat) :
    Except Err (AList × List String × List Nat) := do
  let formulaSize ← dictGetInt bin_info "formulaSize"
  let (formula_b, f) := pyRead formulaSize f
  let bin_info := dictSet bin_info "formula" (.str (pyStrip formula_b))
  let noteSize ← dictGetInt bin_info "noteSize"
  let (note_b, f) := pyRead noteSize f
  let bin_info := dictSet bin_info "note" (.str (pyStrip note_b))
  let dataEUnitsSize ← dictGetInt bin_info "dataEUnitsSize"
  let (dataEUnits_b, f) := pyRead dataEUnitsSize f
  let bin_info := dictSet bin_info "dataEUnits" (.str (pyStrip dataEUnits_b))
  let dimEUnitsSize ← dictGetInts bin_info "dimEUnitsSize"
  let (dimEUnits, f) := readEach dimEUnitsSize f
  let bin_info := dictSet bin_info "dimEUnits" (.strs dimEUnits)
  let dimLabelsSize ← dictGetInts bin_info "dimLabelsSize"
  let (dimLabels, f) := readLabels dimLabelsSize f
  let bin_info := dictSet bin_info "dimLabels" (.strss dimLabels)
  if typ = 0 then do
    let sIndicesSize ← dictGetInt bin_info "sIndicesSize"
    let (sIndices_b, f) := pyRead sIndicesSize f
    .ok (dictSet bin_info "sIndices" (.bytes sIndices_b), [], f)
  else
    .ok (bin_info, [], f)

/-- The post-data dispatch of `loadibw` (lines 553-619); the `if/elif`
chain has no final `else`, so an unmatched version reads nothing. -/
def postDataStep (strict : Bool) (version typ : Int) (bin_info : AList)
    (f : List Nat) : Except Err (AList × List String × List Nat) :=
  if version = 1 then .ok (bin_info, [], f)
  else if version = 2 then postData2 strict bin_info f
  else if version = 3 then postData3 strict bin_info f
  else if version = 5 then postData5 typ bin_info f
  else .ok (bin_info, [], f)

/-- The text-wave branch of `loadibw` (lines 621-635): look up the string
indices (a `KeyError` when absent), split the payload, then recompute the
shape from `nDim` and validate it by `reshape` (whose result is discarded,
so the returned array stays one-dimensional). -/
def textSplitPhase (bin_info wave_info : AList) (arr : NdArray) :
    Except Err (List String) := do
  let sIndices ← dictGetBytes bin_info "sIndices"
  let elems := (arr.data.take (shapeProd arr.shape).toNat).map toInt8
  let strings ← splitWaveStrings elems sIndices
  let nDim ← dictGetInts wave_info "nDim"
  let shape := pyShapeFilter nDim
  if (strings.length : Int) = shapeProd shape then
    .ok strings
  else
    .error (.valueError "cannot reshape array")

/-- The decoded wave data: a numeric array, or the 1-D string array built
by `numpy.array(strings)` for a text wave. -/
inductive PyData where
  | numeric (arr : NdArray)
  | strings (ss : List String)
  deriving DecidableEq, Repr

/-- The value returned by `loadibw` — `(data, bin_info, wave_info)` — plus
the warnings written to stderr along the way. -/
structure LoadResult where
  data : PyData
  bin_info : AList
  wave_info : AList
  warnings : List String
  deriving DecidableEq, Repr

/-- `loadibw` after the version has been resolved (lines 507-640).
Intermediate tuples are taken apart with projections rather than pattern
lets; the steps are exactly the source's statements in order. -/
def loadWithVersion (strict : Bool) (version : Int) (byteOrder : ByteOrder)
    (b0 f1 : List Nat) : Except Err LoadResult := do
  let vsc ← version_structs version byteOrder
  let bin_struct := vsc.1
  let wave_struct := vsc.2.1
  let checkSumSize := vsc.2.2
  let mf := pyRead
    ((structSize bin_struct + structSize wave_struct : Int) -
      (structSize BinHeaderCommon : Int)) f1
  let b := b0 ++ mf.1
  let c ← checksum b byteOrder 0 checkSumSize
  let _ ← checksumGate c
  let bin_info ← bin_struct.unpack_dict_from byteOrder b 0
  let wave_info ← wave_struct.unpack_dict_from byteOrder b (structSize bin_struct)
  let wfmSize ← dictGetInt bin_info "wfmSize"
  let tw ← tailSize version wfmSize wave_struct
  let typ ← dictGetInt wave_info "type"
  let npnts ← dictGetInt wave_info "npnts"
  let shape0 ← shapeStep version wave_info npnts
  let si ← typeStep typ tw.2 npnts shape0
  let af ← dataStep b mf.2 tw.1 tw.2 npnts si.1 si.2
  let bwf ← postDataStep strict version typ bin_info af.2
  if typ = 0 then do
    let strings ← textSplitPhase bwf.1 wave_info af.1
    .ok { data := .strings strings, bin_info := bwf.1,
          wave_info := wave_info, warnings := bwf.2.1 }
  else
    .ok { data := .numeric af.1, bin_info := bwf.1,
          wave_info := wave_info, warnings := bwf.2.1 }

/-- `loadibw` (binarywave.py lines 492-640) over an in-memory byte source. -/
def loadibw (native : ByteOrder) (strict : Bool) (file : List Nat) :
    Except Err LoadResult := do
  let vi ← readVersion native file
  loadWithVersion strict vi.version vi.byteOrder vi.b0 vi.rest

/-- `saveibw` raises `NotImplementedError` unconditionally. -/
def saveibw : Except Err Unit :=
  .error (.valueError "NotImplementedError")

/-! ### Concrete sample files

Built with the model's own `pack_dict`; the checksum field is solved so the
rolling checksum comes out zero. -/

/-- Choose a signed-16-bit checksum field value cancelling a residue `c0`
(the masked checksum of the file packed with a zero checksum field). -/
def solveChecksumField (c0 : Int) : Int :=
  if c0 ≤ 32768 then -c0 else 65536 - c0

/-- Bin header dictionary for the sample version-5 file, parameterized by
the checksum field.  `wfmSize = 322` declares a 2-byte payload
(`322 - (324 - 4)`). -/
def exV5BinDict (k : Int) : AList :=
  [("version", .int 5), ("checksum", .int k), ("wfmSize", .int 322),
   ("formulaSize", .int 0), ("noteSize", .int 0), ("dataEUnitsSize", .int 0),
   ("dimEUnitsSize", .ints [0, 0, 0, 0]), ("dimLabelsSize", .ints [0, 0, 0, 0]),
   ("sIndicesSize", .int 0), ("optionsSize1", .int 0), ("optionsSize2", .int 0)]

/-- Wave header dictionary for the sample version-5 file: an `int8` wave
(type 8) with `npnts = 2` and dimension extents `[1, 0, 2, 0]` — a positive
extent after a zero one. -/
def exV5WaveDict : AList :=
  [("next", .int 0), ("creationDate", .int 0), ("modDate", .int 0),
   ("npnts", .int 2), ("type", .int 8), ("dLock", .int 0),
   ("whpad1", .ints (List.replicate 6 0)), ("whVersion", .int 1),
   ("bname", .ints (List.replicate 32 0)), ("whpad2", .int 0),
   ("dFolder", .int 0), ("nDim", .ints [1, 0, 2, 0]),
   ("sfA", .ints (List.replicate 4 0)), ("sfB", .ints (List.replicate 4 0)),
   ("dataUnits", .ints (List.replicate 4 0)),
   ("dimUnits", .ints (List.replicate 16 0)), ("fsValid", .int 0),
   ("whpad3", .int 0), ("topFullScale", .int 0), ("botFullScale", .int 0),
   ("dataEUnits", .int 0), ("dimEUnits", .ints (List.replicate 4 0)),
   ("dimLabels", .ints (List.replicate 4 0)), ("waveNoteH", .int 0),
   ("whUnused", .ints (List.replicate 16 0)), ("aModified", .int 0),
   ("wModified", .int 0), ("swModified", .int 0), ("useBits", .int 0),
   ("kindBits", .int 0), ("formula", .int 0), ("depID", .int 0),
   ("whpad4", .int 0), ("srcFldr", .int 0), ("fileName", .int 0),
   ("sIndices", .int 0), ("wData", .int 0)]

/-- The sample version-5 file with a given checksum field. -/
def exV5FileWith (k : Int) : List Nat :=
  (BinHeader5.pack_dict .little (exV5BinDict k)).toOption.getD [] ++
    (WaveHeader5.pack_dict .little exV5WaveDict).toOption.getD []

/-- The checksum field value that zeroes the version-5 sample's checksum. -/
def exV5k : Int :=
  solveChecksumField ((checksum (exV5FileWith 0) .little 0 384).toOption.getD 0)

/-- The complete sample version-5 file (388 bytes, no post-data). -/
def exV5File : List Nat :=
  exV5FileWith exV5k

/-- Bin header dictionary for the sample version-1 file. -/
def exV1BinDict (k : Int) : AList :=
  [("version", .int 1), ("wfmSize", .int 126), ("checksum", .int k)]

/-- Wave header dictionary for the sample version-1 file: a `float32` wave
(type 2) with zero points. -/
def exV1WaveDict : AList :=
  [("type", .int 2), ("next", .int 0),
   ("bname", .ints (List.replicate 20 0)), ("whVersion", .int 0),
   ("srcFldr", .int 0), ("fileName", .int 0),
   ("dataUnits", .ints (List.replicate 4 0)),
   ("xUnits", .ints (List.replicate 4 0)), ("npnts", .int 0),
   ("aModified", .int 0), ("hsA", .int 0), ("hsB", .int 0),
   ("wModified", .int 0), ("swModified", .int 0), ("fsValid", .int 0),
   ("topFullScale", .int 0), ("botFullScale", .int 0), ("useBits", .int 0),
   ("kindBits", .int 0), ("formula", .int 0), ("depID", .int 0),
   ("creationDate", .int 0), ("wUnused", .ints [0, 0]), ("modDate", .int 0),
   ("waveNoteH", .int 0), ("wData", .ints [0, 0, 0, 0])]

/-- The sample version-1 file with a given checksum field. -/
def exV1FileWith (k : Int) : List Nat :=
  (BinHeader1.pack_dict .little (exV1BinDict k)).toOption.getD [] ++
    (WaveHeader2.pack_dict .little exV1WaveDict).toOption.getD []

/-- The checksum field value that zeroes the version-1 sample's checksum. -/
def exV1k : Int :=
  solveChecksumField ((checksum (exV1FileWith 0) .little 0 134).toOption.getD 0)

/-- The complete sample version-1 file (134 bytes). -/
def exV1File : List Nat :=
  exV1FileWith exV1k

/-- Shape of decoded data: a numeric array's shape, or the 1-D shape of
`numpy.array(strings)`. -/
def pyDataShape : PyData → List Int
  | .numeric arr => arr.shape
  | .strings ss => [(ss.length : Int)]

/-! ### Claim-side definitions (formalizing the spec's words, for the
claims that compare the code against them) -/

/-- The 32-bit overflow semantics in the spec's words: wrap at `2^32`,
then if still above `2^31` subtract `2^31`. -/
def claimOverflow32 (s : Int) : Int :=
  let t := s % 2 ^ 32
  if t > 2 ^ 31 then t - 2 ^ 31 else t

/-- The checksum as the spec describes it: sum the signed 16-bit windows,
apply the 32-bit overflow semantics, then mask to the low 16 bits. -/
def checksumClaim (buffer : List Nat) (byteOrder : ByteOrder) (oldcksum : Int)
    (numbytes : Nat) : Int :=
  claimOverflow32 (oldcksum +
    (toInt16Windows byteOrder (buffer.take (2 * (numbytes / 2)))).sum) % 65536

/-- The version-5 shape rule as the spec words it: the leading run of
positive extents, a zero extent terminating the dimension list, `(0,)`
when no leading extent is positive. -/
def claimShapeV5 (nDim : List Int) : List Int :=
  let run := nDim.takeWhile (fun n => n > 0)
  if run = [] then [0] else run

/-- The text-wave splitting as the spec words it: each index greater than
the running start closes the run `[start, index)`, bytes mapped 1:1 to
characters; other indices close nothing. -/
def claimRuns (data : List Int) (start : Nat) : List Nat → List String
  | [] => []
  | i :: rest =>
    if i > start then
      String.mk (((data.take i).drop start).map (fun x => Char.ofNat x.toNat)) ::
        claimRuns data i rest
    else
      claimRuns data start rest

/-- Index tables the splitter accepts without an assertion failure: every
entry is zero (a no-op) or strictly above the running start, and stays
within the payload. -/
def validIndices (len : Nat) : Nat → List Nat → Bool
  | _, [] => true
  | start, i :: rest =>
    (decide (i = 0) || (decide (start < i) && decide (i ≤ len))) &&
      validIndices len (if start < i then i else start) rest

/-- One value matches one field: a scalar in range for a scalar field, an
array of the right length with every element in range for a repeated
field. -/
def fieldMatches (f : Field) (a : PyVal) : Bool :=
  match a with
  | .int v => decide (f.count = 1) && decide (inRange f.format v)
  | .ints l =>
    decide (f.count > 1) && decide (l.length = f.count) &&
      l.all (fun v => decide (inRange f.format v))
  | _ => false

/-- An argument list of representable values for a record. -/
def argsMatch (s : Structure) (args : List PyVal) : Bool :=
  decide (s.fields.length = args.length) &&
    (s.fields.zip args).all (fun p => fieldMatches p.1 p.2)

/-! ### Helper lemmas -/

/-- Inversion for `Except.bind` success. -/
theorem exceptBind_ok {α β : Type} {x : Except Err α} {f : α → Except Err β}
    {b : β} : x >>= f = Except.ok b ↔ ∃ a, x = Except.ok a ∧ f a = Except.ok b := by
  cases x <;> simp [Bind.bind, Except.bind]

/-- A fresh binding is found by `dictGet`. -/
theorem dictGet_dictSet_self (d : AList) (k : String) (v : PyVal) :
    dictGet (dictSet d k v) k = some v := by
  induction d with
  | nil => simp [dictGet, dictSet, List.find?]
  | cons hd tl ih =>
    obtain ⟨k0, v0⟩ := hd
    by_cases h : k0 = k
    · simp [dictGet, dictSet, h, List.find?]
    · simpa [dictGet, dictSet, h, List.find?] using ih

/-- `dictSet` does not disturb other keys. -/
theorem dictGet_dictSet_ne (d : AList) (k k' : String) (v : PyVal)
    (h : k' ≠ k) : dictGet (dictSet d k v) k' = dictGet d k' := by
  induction d with
  | nil => simp [dictGet, dictSet, List.find?, Ne.symm h]
  | cons hd tl ih =>
    obtain ⟨k0, v0⟩ := hd
    by_cases hh : k0 = k
    · subst hh
      simp [dictGet, dictSet, List.find?, Ne.symm h]
    · by_cases hk' : k0 = k'
      · subst hk'
        simp [dictGet, dictSet, List.find?, h]
      · simpa [dictGet, dictSet, hh, List.find?, hk'] using ih

/-- Masking to the low 16 bits is unaffected by a wrap at `2^32`. -/
theorem pyMask16_emod_pow32 (s : Int) : pyMask16 (s % 2 ^ 32) = pyMask16 s := by
  unfold pyMask16
  exact Int.emod_emod_of_dvd s (by norm_num)

/-- Masking to the low 16 bits is unaffected by subtracting `2^31`. -/
theorem pyMask16_sub_pow31 (s : Int) : pyMask16 (s - 2 ^ 31) = pyMask16 s := by
  unfold pyMask16
  conv_rhs => rw [← Int.sub_zero s]
  rw [Int.sub_emod s 0, Int.sub_emod s (2 ^ 31)]
  norm_num

/-- A key absent from the names is absent from the zipped dictionary. -/
theorem dictGet_zip_none (names : List String) (args : List PyVal)
    (k : String) (h : k ∉ names) : dictGet (names.zip args) k = none := by
  induction names generalizing args with
  | nil => simp [dictGet]
  | cons n ns ih =>
    cases args with
    | nil => simp [dictGet]
    | cons a as =>
      have hn : n ≠ k := fun he => h (he ▸ List.mem_cons_self n ns)
      have hns : k ∉ ns := fun hm => h (List.mem_cons_of_mem n hm)
      simpa [dictGet, List.zip_cons_cons, List.find?, hn] using ih as hns

/-! ### Claim theorems -/

/-- C2.  `need_to_reorder_bytes(version)` holds iff `version & 0xFF == 0`
(the low byte of the version is zero), and `byte_order` yields the order
opposite to the native machine order exactly when reordering is needed,
the native order otherwise. -/
theorem claim_C2 (version : Int) (native : ByteOrder) :
    (need_to_reorder_bytes version = true ↔ version % 256 = 0) ∧
      byte_order native (need_to_reorder_bytes version) =
        (if need_to_reorder_bytes version then native.opposite else native) := by
  constructor
  · simp [need_to_reorder_bytes]
  · cases hn : need_to_reorder_bytes version <;> cases native <;>
      simp [byte_order, ByteOrder.opposite]

/-- C3.  `version_structs` maps version 1 to `(BinHeader1, WaveHeader2)`,
2 to `(BinHeader2, WaveHeader2)`, 3 to `(BinHeader3, WaveHeader2)`, and 5
to `(BinHeader5, WaveHeader5)`, with a checksum window equal to the sum of
the two record sizes (minus 4 bytes for version 5 only), and raises a
fatal `FormatError` carrying the raw version value for any other version. -/
theorem claim_C3 (byteOrder : ByteOrder) (version : Int) :
    version_structs 1 byteOrder =
        .ok (BinHeader1, WaveHeader2, structSize BinHeader1 + structSize WaveHeader2) ∧
      version_structs 2 byteOrder =
        .ok (BinHeader2, WaveHeader2, structSize BinHeader2 + structSize WaveHeader2) ∧
      version_structs 3 byteOrder =
        .ok (BinHeader3, WaveHeader2, structSize BinHeader3 + structSize WaveHeader2) ∧
      version_structs 5 byteOrder =
        .ok (BinHeader5, WaveHeader5,
          structSize BinHeader5 + structSize WaveHeader5 - 4) ∧
      (version ≠ 1 → version ≠ 2 → version ≠ 3 → version ≠ 5 →
        version_structs version byteOrder =
          .error (.valueError (versionErrMsg version))) := by
  refine ⟨by norm_num [version_structs], by norm_num [version_structs],
    by norm_num [version_structs], by norm_num [version_structs], ?_⟩
  intro h1 h2 h3 h5
  simp [version_structs, h1, h2, h3, h5]

/-- C3 witness: the four recognized versions at a concrete byte order, and
the error for the concrete unrecognized version 7. -/
theorem claim_C3_witness :
    version_structs 7 ByteOrder.little = .error (.valueError (versionErrMsg 7)) :=
  (claim_C3 ByteOrder.little 7).2.2.2.2 (by decide) (by decide) (by decide)
    (by decide)

/-- C9 (code bug): `BinHeader2.pack_dict` on a mapping that provides every
field except `pictSize` — a field declared with `default=0` — fails with a
`ValueError`, because `Field.__init__` (line 50) assigns `self.default =
None` instead of the `default` argument; the spec's contract (absent
fields with a declared default are substituted) says this pack must
succeed. -/
theorem claim_C9 :
    BinHeader2.pack_dict ByteOrder.little
        [("version", .int 2), ("wfmSize", .int 0), ("noteSize", .int 0),
          ("checksum", .int 0)] =
      .error (.valueError "pictSize field not set for Structure") := by
  rfl

/-- C1.  The checksum interprets exactly `numbytes/2` consecutive 2-byte
windows as signed 16-bit integers in the resolved byte order (a trailing
odd byte is ignored), sums them with the 32-bit overflow semantics (wrap
at `2^32`, then subtract `2^31` if still above it) before masking to the
low 16 bits; and the decode path raises a fatal `FormatError` whenever the
final value is nonzero. -/
theorem claim_C1 :
    (∀ (buffer : List Nat) (byteOrder : ByteOrder) (oldcksum : Int)
        (numbytes : Nat), 2 * (numbytes / 2) ≤ buffer.length →
        checksum buffer byteOrder oldcksum numbytes =
          .ok (checksumClaim buffer byteOrder oldcksum numbytes)) ∧
      (∀ c : Int, c ≠ 0 →
        checksumGate c = .error (.valueError (checksumErrMsg c))) := by
  have key : ∀ s : Int, pyMask16 (cRollover s) = claimOverflow32 s % 65536 := by
    intro s
    show pyMask16 (cRollover s) = pyMask16 (claimOverflow32 s)
    unfold cRollover claimOverflow32
    by_cases h31 : s > 2 ^ 31 <;> by_cases h31' : s % 2 ^ 32 > 2 ^ 31 <;>
      simp only [h31, h31', if_true, if_false, ite_true, ite_false,
        pyMask16_sub_pow31, pyMask16_emod_pow32]
  constructor
  · intro buffer byteOrder oldcksum numbytes hlen
    rw [checksum, if_neg (by omega), checksumClaim, key]
  · intro c hc
    simp [checksumGate, hc]

/-- C1 witness: the checksum of a concrete 5-byte buffer over 4 bytes, and
the gate rejecting the concrete nonzero value 7. -/
theorem claim_C1_witness :
    checksum [1, 2, 3, 4, 5] ByteOrder.little 0 4 =
        .ok (checksumClaim [1, 2, 3, 4, 5] ByteOrder.little 0 4) ∧
      checksumGate 7 = .error (.valueError (checksumErrMsg 7)) :=
  ⟨claim_C1.1 [1, 2, 3, 4, 5] ByteOrder.little 0 4 (by decide),
    claim_C1.2 7 (by decide)⟩

/-- `pyChr` succeeds on the 1:1 character mapping for small byte values. -/
theorem mapM_pyChr_ok (l : List Int) (h : ∀ x ∈ l, 0 ≤ x ∧ x < 128) :
    l.mapM pyChr = .ok (l.map (fun x => Char.ofNat x.toNat)) := by
  induction l with
  | nil => rfl
  | cons a t ih =>
    have ha := h a (List.mem_cons_self a t)
    have hchr : pyChr a = .ok (Char.ofNat a.toNat) := by
      unfold pyChr
      rw [if_pos ⟨ha.1, by omega⟩]
    rw [List.mapM_cons, hchr, ih (fun x hx => h x (List.mem_cons_of_mem a hx))]
    rfl

/-- The splitting loop produces exactly the claim-side runs under the
amended hypotheses. -/
theorem splitWaveStrings_go_eq (data : List Int)
    (hdata : ∀ x ∈ data, 0 ≤ x ∧ x < 128) :
    ∀ (idxs : List Nat) (start : Nat) (acc : List String),
      validIndices data.length start idxs = true →
      splitWaveStrings.go data start idxs acc =
        .ok (acc.reverse ++ claimRuns data start idxs) := by
  intro idxs
  induction idxs with
  | nil =>
    intro start acc _
    simp [splitWaveStrings.go, claimRuns]
  | cons i rest ih =>
    intro start acc hv
    rw [validIndices] at hv
    simp only [Bool.and_eq_true, Bool.or_eq_true, decide_eq_true_eq] at hv
    obtain ⟨hv1, hv2⟩ := hv
    by_cases hgt : i > start
    · have hslice : ∀ x ∈ (data.take i).drop start, 0 ≤ x ∧ x < 128 :=
        fun x hx => hdata x (List.mem_of_mem_take (List.mem_of_mem_drop hx))
      rw [splitWaveStrings.go, if_pos hgt]
      rw [show (if start < i then i else start) = i from if_pos hgt] at hv2
      simp only [mapM_pyChr_ok _ hslice, bind, Except.bind, ih i _ hv2]
      rw [claimRuns, if_pos hgt]
      simp
    · have hi0 : i = 0 := by
        rcases hv1 with h | ⟨hlt, _⟩
        · exact h
        · exact absurd hlt hgt
      rw [show (if start < i then i else start) = start from if_neg hgt] at hv2
      rw [splitWaveStrings.go, if_neg hgt, if_pos hi0, ih start acc hv2,
        claimRuns, if_neg hgt]

/-- C7 counterexample.  The claim fails as stated: (a) a payload byte
`0xFF` is reinterpreted as the numpy `int8` value `-1` and `chr` raises,
instead of being mapped 1:1 to a character; (b) the monotonically
non-decreasing table `[2, 2]` over payload `"ab"` hits the `assert
offset == 0` and raises, instead of producing the runs. -/
theorem claim_C7_counterexample :
    splitWaveStrings ([255].map toInt8) [1] =
        .error (.valueError "chr() arg not in range(256)") ∧
      splitWaveStrings [97, 98] [2, 2] = .error (.assertionError "2") := by
  constructor <;> rfl

/-- C7 (amended).  For a payload of bytes below `0x80` and an index table
whose entries are each either zero (a no-op) or strictly greater than the
running start and at most the payload length, the splitter produces
exactly the consecutive runs `[start, index)` closed by each index above
the running start, bytes mapped 1:1 to characters. -/
theorem claim_C7_amended (data : List Int) (sIndices : List Nat)
    (hdata : ∀ x ∈ data, 0 ≤ x ∧ x < 128)
    (hidx : validIndices data.length 0 sIndices = true) :
    splitWaveStrings data sIndices = .ok (claimRuns data 0 sIndices) := by
  simpa [splitWaveStrings] using
    splitWaveStrings_go_eq data hdata sIndices 0 [] hidx

/-- C7 witness: the spec's own example — payload `"abcde"` with index
table `[0, 1, 3, 5]` splits into `["a", "bc", "de"]`. -/
theorem claim_C7_amended_witness :
    splitWaveStrings [97, 98, 99, 100, 101] [0, 1, 3, 5] =
        .ok (claimRuns [97, 98, 99, 100, 101] 0 [0, 1, 3, 5]) ∧
      claimRuns [97, 98, 99, 100, 101] 0 [0, 1, 3, 5] = ["a", "bc", "de"] :=
  ⟨claim_C7_amended [97, 98, 99, 100, 101] [0, 1, 3, 5] (by decide) (by decide),
    by decide⟩

/-- C5.  Unpacking from a buffer with fewer remaining bytes than the
record's packed size fails with the truncation error (`struct.error`),
except for the two wave-header records: there the missing tail is padded
with zeros, the unpack retried, and the decoded `npnts` asserted to be
zero — any nonzero point count is a fatal `AssertionError`. -/
theorem claim_C5 :
    (∀ (s : Structure) (bo : ByteOrder) (buffer : List Nat) (offset : Nat),
        s.name ≠ "WaveHeader2" → s.name ≠ "WaveHeader5" →
        buffer.length < offset + structSize s →
        s.unpack_from bo buffer offset = .error .structError) ∧
      (∀ (s : Structure) (bo : ByteOrder) (buffer : List Nat) (offset : Nat)
          (args : List PyVal),
          s = WaveHeader2 ∨ s = WaveHeader5 →
          buffer.length < offset + structSize s →
          structUnpackFromRaw s bo
              (buffer ++ List.replicate (structSize s + offset - buffer.length) 0)
              offset = .ok args →
          (dictGet (structDict s args) "npnts" = some (.int 0) →
              s.unpack_from bo buffer offset = .ok args) ∧
            (∀ n : Int, dictGet (structDict s args) "npnts" = some (.int n) →
              n ≠ 0 →
              s.unpack_from bo buffer offset =
                .error (.assertionError (toString n)))) := by
  constructor
  · intro s bo buffer offset h2 h5 hlen
    have hraw : structUnpackFromRaw s bo buffer offset = .error .structError := by
      rw [structUnpackFromRaw, if_pos hlen]
    simp [Structure.unpack_from, hraw, h2, h5]
  · intro s bo buffer offset args hw hlen hraw2
    have hname : ¬(s.name ≠ "WaveHeader2" ∧ s.name ≠ "WaveHeader5") := by
      rcases hw with rfl | rfl <;> simp [WaveHeader2, WaveHeader5]
    have hraw : structUnpackFromRaw s bo buffer offset = .error .structError := by
      rw [structUnpackFromRaw, if_pos hlen]
    constructor
    · intro hget
      simp only [Structure.unpack_from, hraw, if_neg hname, if_pos hlen, hraw2,
        hget]
      simp
    · intro n hget hn
      simp only [Structure.unpack_from, hraw, if_neg hname, if_pos hlen, hraw2,
        hget]
      rw [if_neg hn]

set_option maxRecDepth 10000 in
/-- C5 witness: `BinHeaderCommon` on an empty buffer raises the truncation
error; `WaveHeader2` on an empty buffer is zero-padded and unpacks with
`npnts = 0`. -/
theorem claim_C5_witness :
    BinHeaderCommon.unpack_from ByteOrder.little [] 0 = .error .structError ∧
      ∃ args,
        structUnpackFromRaw WaveHeader2 ByteOrder.little
            (([] : List Nat) ++ List.replicate (structSize WaveHeader2) 0)
            0 = .ok args ∧
          WaveHeader2.unpack_from ByteOrder.little [] 0 = .ok args := by
  constructor
  · exact claim_C5.1 BinHeaderCommon ByteOrder.little [] 0 (by decide)
      (by decide) (by decide)
  · refine ⟨_, rfl, ?_⟩
    exact (claim_C5.2 WaveHeader2 ByteOrder.little [] 0 _ (Or.inl rfl)
      (by decide) rfl).1 (by decide)

/-- The byte-list maximum is zero exactly when every byte is zero. -/
theorem foldl_max_eq_zero (l : List Nat) :
    ∀ acc, l.foldl Nat.max acc = 0 ↔ acc = 0 ∧ ∀ b ∈ l, b = 0 := by
  induction l with
  | nil => simp
  | cons a t ih =>
    intro acc
    rw [List.foldl_cons, ih]
    constructor
    · rintro ⟨hmax, ht⟩
      rcases Nat.max_eq_zero_iff.mp hmax with ⟨h1, h2⟩
      exact ⟨h1, by simpa [h2] using ht⟩
    · rintro ⟨hacc, hall⟩
      exact ⟨Nat.max_eq_zero_iff.mpr ⟨hacc, hall a (List.mem_cons_self a t)⟩,
        fun b hb => hall b (List.mem_cons_of_mem a hb)⟩

/-- `assert_null` on a buffer with a nonzero byte: fatal when strict, a
single warning otherwise. -/
theorem assert_null_nonzero (pad : List Nat) (h : ∃ b ∈ pad, b ≠ 0) :
    assert_null pad true = .error (.valueError (hex_bytes1 pad)) ∧
      assert_null pad false =
        .ok ["warning: post-data padding not zero: " ++ hex_bytes1 pad ++ "\n"] := by
  obtain ⟨b, hb, hbne⟩ := h
  have hne : pad.length ≠ 0 ∧ pyMaxByte pad ≠ 0 := by
    refine ⟨by simpa using List.ne_nil_of_mem hb, fun hz => hbne ?_⟩
    exact ((foldl_max_eq_zero pad 0).mp hz).2 b hb
  constructor <;> simp [assert_null, hne]

/-- `assert_null` on an all-zero (or empty) buffer never raises or warns. -/
theorem assert_null_zero (pad : List Nat) (h : ∀ b ∈ pad, b = 0)
    (strict : Bool) : assert_null pad strict = .ok [] := by
  have hz : pyMaxByte pad = 0 := (foldl_max_eq_zero pad 0).mpr ⟨rfl, h⟩
  simp [assert_null, hz]

/-- C8.  For a version-2 or version-3 post-data region whose 16 padding
bytes contain a nonzero byte, decoding raises a fatal error in strict mode
and warns but continues in lenient mode, still returning the remaining
metadata (the note, and for version 3 the formula); an all-zero padding
region never raises or warns in either mode. -/
theorem claim_C8 (strict : Bool) (pad rest : List Nat) (bin : AList)
    (ns fs : Int) (hpad : pad.length = 16)
    (hns : dictGet bin "noteSize" = some (.int ns))
    (hfs : dictGet bin "formulaSize" = some (.int fs)) :
    ((∃ b ∈ pad, b ≠ 0) →
      postData2 true bin (pad ++ rest) = .error (.valueError (hex_bytes1 pad)) ∧
        postData3 true bin (pad ++ rest) =
          .error (.valueError (hex_bytes1 pad)) ∧
        postData2 false bin (pad ++ rest) =
          .ok (dictSet bin "note" (.str (pyStrip (pyRead ns rest).1)),
            ["warning: post-data padding not zero: " ++ hex_bytes1 pad ++ "\n"],
            (pyRead ns rest).2) ∧
        postData3 false bin (pad ++ rest) =
          .ok (dictSet (dictSet bin "note" (.str (pyStrip (pyRead ns rest).1)))
              "formula" (.str (pyStrip (pyRead fs (pyRead ns rest).2).1)),
            ["warning: post-data padding not zero: " ++ hex_bytes1 pad ++ "\n"],
            (pyRead fs (pyRead ns rest).2).2)) ∧
      ((∀ b ∈ pad, b = 0) →
        postData2 strict bin (pad ++ rest) =
          .ok (dictSet bin "note" (.str (pyStrip (pyRead ns rest).1)), [],
            (pyRead ns rest).2) ∧
          postData3 strict bin (pad ++ rest) =
            .ok (dictSet (dictSet bin "note" (.str (pyStrip (pyRead ns rest).1)))
                "formula" (.str (pyStrip (pyRead fs (pyRead ns rest).2).1)),
              [], (pyRead fs (pyRead ns rest).2).2)) := by
  have hsplit : pyRead 16 (pad ++ rest) = (pad, rest) := by
    have h16 : (16 : Int).toNat = pad.length := by rw [hpad]; rfl
    simp [pyRead, h16, List.take_left, List.drop_left]
  have hnsI : dictGetInt bin "noteSize" = .ok ns := by
    rw [dictGetInt, hns]
  have hfsI :
      dictGetInt (dictSet bin "note" (.str (pyStrip (pyRead ns rest).1)))
        "formulaSize" = .ok fs := by
    rw [dictGetInt, dictGet_dictSet_ne _ _ _ _ (by decide), hfs]
  constructor
  · intro hnz
    obtain ⟨he, hw⟩ := assert_null_nonzero pad hnz
    refine ⟨?_, ?_, ?_, ?_⟩ <;>
      simp [postData2, postData3, hsplit, he, hw, hnsI, hfsI, bind, Except.bind]
  · intro hz
    have ha := assert_null_zero pad hz strict
    constructor <;>
      simp [postData2, postData3, hsplit, ha, hnsI, hfsI, bind, Except.bind]

set_option maxRecDepth 4000 in
/-- C8 witness: a concrete nonzero pad (`15` zero bytes then a `1`) raises
in strict mode and warns in lenient mode; the all-zero pad is silent. -/
theorem claim_C8_witness :
    (postData2 true [("noteSize", .int 0), ("formulaSize", .int 0)]
        (List.replicate 15 0 ++ [1] ++ []) =
      .error (.valueError (hex_bytes1 (List.replicate 15 0 ++ [1])))) ∧
      (postData2 false [("noteSize", .int 0), ("formulaSize", .int 0)]
          (List.replicate 16 0 ++ []) =
        .ok (dictSet [("noteSize", .int 0), ("formulaSize", .int 0)] "note"
            (.str (pyStrip (pyRead 0 []).1)), [], (pyRead 0 []).2)) := by
  constructor
  · exact ((claim_C8 true (List.replicate 15 0 ++ [1]) [] _ 0 0 (by decide)
      (by decide) (by decide)).1 (by decide)).1
  · exact ((claim_C8 false (List.replicate 16 0) [] _ 0 0 (by decide)
      (by decide) (by decide)).2 (by decide)).1

/-! ### C6: pack/unpack round trip -/

/-- Every format has a positive size. -/
theorem fmtSize_pos (fmt : Fmt) : 1 ≤ fmtSize fmt := by
  cases fmt <;> decide

/-- `toBytesLE` always produces exactly `w` bytes. -/
theorem toBytesLE_length (w : Nat) : ∀ n, (toBytesLE w n).length = w := by
  induction w with
  | zero => intro n; rfl
  | succ w ih => intro n; simp [toBytesLE, ih]

/-- Little-endian decode inverts little-endian encode below `256 ^ w`. -/
theorem fromBytesLE_toBytesLE (w : Nat) :
    ∀ n, n < 256 ^ w → fromBytesLE (toBytesLE w n) = n := by
  induction w with
  | zero =>
    intro n h
    interval_cases n
    rfl
  | succ w ih =>
    intro n h
    have hdiv : n / 256 < 256 ^ w := by
      rw [pow_succ] at h
      exact Nat.div_lt_of_lt_mul (by omega)
    rw [toBytesLE, fromBytesLE, ih (n / 256) hdiv]
    omega

/-- Byte-order decode inverts byte-order encode below `256 ^ w`. -/
theorem bytesToNat_natToBytes (bo : ByteOrder) (w n : Nat) (h : n < 256 ^ w) :
    bytesToNat bo (natToBytes bo w n) = n := by
  cases bo <;>
    simp [natToBytes, bytesToNat, List.reverse_reverse,
      fromBytesLE_toBytesLE w n h]

/-- `natToBytes` always produces exactly `w` bytes. -/
theorem natToBytes_length (bo : ByteOrder) (w n : Nat) :
    (natToBytes bo w n).length = w := by
  cases bo <;> simp [natToBytes, toBytesLE_length]

/-- `256 ^ w` as a power of two. -/
theorem pow256_eq (w : Nat) : (256 : Nat) ^ w = 2 ^ (8 * w) := by
  rw [pow_mul]
  norm_num

/-- Two's-complement unwrap: `toSigned` inverts the `% 2 ^ bits` wrap on
the signed range. -/
theorem toSigned_emod (bits : Nat) (hb : 1 ≤ bits) (v : Int)
    (hlow : -(2 ^ (bits - 1)) ≤ v) (hhigh : v < 2 ^ (bits - 1)) :
    toSigned bits ((v % (2 ^ bits)).toNat) = v := by
  have hsplit : (2 : Int) ^ bits = 2 ^ (bits - 1) * 2 := by
    rw [← pow_succ]
    congr 1
    omega
  have hpos : (0 : Int) < 2 ^ bits := by positivity
  have hmod : 0 ≤ v % 2 ^ bits ∧ v % 2 ^ bits < 2 ^ bits :=
    ⟨Int.emod_nonneg v (by positivity), Int.emod_lt_of_pos v hpos⟩
  have hcast1 : ((2 ^ (bits - 1) : Nat) : Int) = (2 : Int) ^ (bits - 1) := by
    push_cast
    ring
  unfold toSigned
  rcases le_or_lt 0 v with hp | hn
  · rw [Int.emod_eq_of_lt hp (by omega)]
    rw [if_pos (by omega)]
    omega
  · have heq : v % 2 ^ bits = v + 2 ^ bits := by
      have hadd : (v + 2 ^ bits) % (2 ^ bits) = v % (2 ^ bits) := by
        rw [Int.add_emod, Int.emod_self, add_zero,
          Int.emod_emod_of_dvd _ dvd_rfl]
      rw [← hadd, Int.emod_eq_of_lt (by omega) (by omega)]
    rw [heq, if_neg (by omega)]
    omega

/-- Decoding inverts encoding on every in-range element value, regardless
of trailing bytes. -/
theorem decodeElem_encodeElem (bo : ByteOrder) (fmt : Fmt) (v : Int)
    (h : inRange fmt v) :
    ∃ b, encodeElem bo fmt v = .ok b ∧ b.length = fmtSize fmt ∧
      ∀ extra, decodeElem bo fmt (b ++ extra) = v := by
  have hw1 : 1 ≤ fmtSize fmt := fmtSize_pos fmt
  have hcast : ((2 ^ (8 * fmtSize fmt) : Nat) : Int) =
      (2 : Int) ^ (8 * fmtSize fmt) := by
    push_cast
    ring
  have hcast1 : ((2 ^ (8 * fmtSize fmt - 1) : Nat) : Int) =
      (2 : Int) ^ (8 * fmtSize fmt - 1) := by
    push_cast
    ring
  have hsplit : (2 : Int) ^ (8 * fmtSize fmt) =
      2 ^ (8 * fmtSize fmt - 1) * 2 := by
    rw [← pow_succ]
    congr 1
    omega
  rw [encodeElem, if_pos h]
  cases hs : fmtSigned fmt
  · -- unsigned formats: the value is already the stored magnitude
    have hv : 0 ≤ v ∧ v < 2 ^ (8 * fmtSize fmt) := by
      simpa [inRange, hs] using h
    refine ⟨_, by rw [if_neg (by simp [hs])], natToBytes_length _ _ _, ?_⟩
    intro extra
    have hlt : v.toNat < 256 ^ fmtSize fmt := by
      rw [pow256_eq]
      omega
    rw [decodeElem, List.take_left' (natToBytes_length bo _ _),
      bytesToNat_natToBytes bo _ _ hlt, hs]
    simp [Int.toNat_of_nonneg hv.1]
  · -- signed formats: two's-complement wrap and unwrap
    have hv : -(2 ^ (8 * fmtSize fmt - 1)) ≤ v ∧
        v < 2 ^ (8 * fmtSize fmt - 1) := by
      simpa [inRange, hs] using h
    have hmodpos : (0 : Int) < 2 ^ (8 * fmtSize fmt) := by positivity
    refine ⟨_, by rw [if_pos (by simp [hs])], natToBytes_length _ _ _, ?_⟩
    intro extra
    have hemod : 0 ≤ v % (2 ^ (8 * fmtSize fmt)) ∧
        v % (2 ^ (8 * fmtSize fmt)) < 2 ^ (8 * fmtSize fmt) :=
      ⟨Int.emod_nonneg v (by positivity), Int.emod_lt_of_pos v hmodpos⟩
    have hlt : (v % (2 ^ (8 * fmtSize fmt))).toNat < 256 ^ fmtSize fmt := by
      rw [pow256_eq]
      omega
    rw [decodeElem, List.take_left' (natToBytes_length bo _ _),
      bytesToNat_natToBytes bo _ _ hlt, hs]
    exact toSigned_emod (8 * fmtSize fmt) (by omega) v hv.1 hv.2

/-- Packing a flat in-range value list succeeds and decoding the bytes
(under any trailing garbage) restores the values. -/
theorem packFlat_roundtrip (bo : ByteOrder) :
    ∀ (fmts : List Fmt) (vs : List Int), fmts.length = vs.length →
      (∀ p ∈ fmts.zip vs, inRange p.1 p.2) →
      ∃ bs, packFlat bo fmts vs = .ok bs ∧ bs.length = fmtsSize fmts ∧
        ∀ extra, decodeFlat bo fmts (bs ++ extra) = vs := by
  intro fmts
  induction fmts with
  | nil =>
    intro vs hlen _
    cases vs with
    | nil => exact ⟨[], rfl, rfl, fun _ => rfl⟩
    | cons v vs => simp at hlen
  | cons fmt fmts ih =>
    intro vs hlen hr
    cases vs with
    | nil => simp at hlen
    | cons v vs =>
      obtain ⟨b, hb, hblen, hbdec⟩ :=
        decodeElem_encodeElem bo fmt v (hr (fmt, v) (by simp))
      obtain ⟨bs, hbs, hbslen, hbsdec⟩ := ih vs (by simpa using hlen)
        (fun p hp => hr p (by simp [List.zip_cons_cons, hp]))
      refine ⟨b ++ bs, ?_, ?_, ?_⟩
      · simp [packFlat, hb, hbs, bind, Except.bind]
      · simp [hblen, hbslen, fmtsSize]
      · intro extra
        rw [decodeFlat, List.append_assoc, hbdec (bs ++ extra),
          List.drop_left' hblen, hbsdec extra]

/-- Every pair drawn from a zip with a replicated left list has that
element on the left and a member of the right list on the right. -/
theorem mem_zip_replicate {α β : Type} {n : Nat} {x : α} {l : List β}
    {p : α × β} (h : p ∈ (List.replicate n x).zip l) : p.1 = x ∧ p.2 ∈ l := by
  induction n generalizing l with
  | zero => simp [List.replicate] at h
  | succ n ih =>
    cases l with
    | nil => simp at h
    | cons b bs =>
      rw [List.replicate_succ, List.zip_cons_cons] at h
      rcases List.mem_cons.mp h with he | hm
      · rw [he]
        exact ⟨rfl, List.mem_cons_self b bs⟩
      · obtain ⟨h1, h2⟩ := ih hm
        exact ⟨h1, List.mem_cons_of_mem b h2⟩

/-- The flattened arguments line up with the flattened formats: same
length, and every aligned pair is in range. -/
theorem flatten_spec :
    ∀ (fields : List Field) (args : List PyVal),
      fields.length = args.length →
      (∀ p ∈ fields.zip args, fieldMatches p.1 p.2 = true) →
      (flattenArgs args fields).length =
          (fields.flatMap (fun f => List.replicate f.count f.format)).length ∧
        ∀ p ∈ (fields.flatMap (fun f => List.replicate f.count f.format)).zip
            (flattenArgs args fields), inRange p.1 p.2 := by
  intro fields
  induction fields with
  | nil =>
    intro args hlen _
    cases args with
    | nil => exact ⟨rfl, by simp⟩
    | cons a as => simp at hlen
  | cons f fs ih =>
    intro args hlen hall
    cases args with
    | nil => simp at hlen
    | cons a as =>
      have hhead := hall (f, a) (by simp)
      obtain ⟨ihlen, ihr⟩ := ih as (by simpa using hlen)
        (fun p hp => hall p (by simp [List.zip_cons_cons, hp]))
      cases a with
      | int v =>
        have hm : f.count = 1 ∧ inRange f.format v := by
          simpa [fieldMatches] using hhead
        constructor
        · simp [flattenArgs, hm.1, List.flatMap_cons, ihlen]
        · intro p hp
          rw [List.flatMap_cons, flattenArgs] at hp
          rw [if_neg (by omega)] at hp
          rw [List.zip_append (by simp [hm.1])] at hp
          rcases List.mem_append.mp hp with hin | hin
          · have hpe : p = (f.format, v) := by simpa [hm.1] using hin
            rw [hpe]
            exact hm.2
          · exact ihr p hin
      | ints l =>
        have hm : f.count > 1 ∧ l.length = f.count ∧
            ∀ v ∈ l, inRange f.format v := by
          have := hhead
          simp only [fieldMatches, Bool.and_eq_true, decide_eq_true_eq,
            List.all_eq_true] at this
          exact ⟨this.1.1, this.1.2, fun v hv => by simpa using this.2 v hv⟩
        constructor
        · simp [flattenArgs, if_pos hm.1, List.flatMap_cons, ihlen, hm.2.1]
        · intro p hp
          rw [List.flatMap_cons, flattenArgs, if_pos hm.1] at hp
          rw [List.zip_append (by simp [hm.2.1])] at hp
          rcases List.mem_append.mp hp with hin | hin
          · rcases mem_zip_replicate hin with ⟨h1, h2⟩
            rw [h1]
            exact hm.2.2 p.2 h2
          · exact ihr p hin
      | str s => simp [fieldMatches] at hhead
      | strs ss => simp [fieldMatches] at hhead
      | strss sss => simp [fieldMatches] at hhead
      | bytes bs => simp [fieldMatches] at hhead

/-- Unflattening the flattened arguments restores them. -/
theorem unflatten_flatten :
    ∀ (fields : List Field) (args : List PyVal),
      fields.length = args.length →
      (∀ p ∈ fields.zip args, fieldMatches p.1 p.2 = true) →
      unflattenArgs fields (flattenArgs args fields) = args := by
  intro fields
  induction fields with
  | nil =>
    intro args hlen _
    cases args with
    | nil => rfl
    | cons a as => simp at hlen
  | cons f fs ih =>
    intro args hlen hall
    cases args with
    | nil => simp at hlen
    | cons a as =>
      have hhead := hall (f, a) (by simp)
      have htail := ih as (by simpa using hlen)
        (fun p hp => hall p (by simp [List.zip_cons_cons, hp]))
      cases a with
      | int v =>
        have hm : f.count = 1 ∧ inRange f.format v := by
          simpa [fieldMatches] using hhead
        rw [flattenArgs, if_neg (by omega), unflattenArgs, if_neg (by omega)]
        simp only [List.singleton_append, List.headD_cons, hm.1, List.drop_one,
          List.tail_cons, htail]
      | ints l =>
        have hm : f.count > 1 ∧ l.length = f.count := by
          have := hhead
          simp only [fieldMatches, Bool.and_eq_true, decide_eq_true_eq,
            List.all_eq_true] at this
          exact ⟨this.1.1, this.1.2⟩
        rw [flattenArgs, if_pos hm.1, unflattenArgs, if_pos hm.1,
          List.take_left' hm.2, List.drop_left' hm.2, htail]
      | str s => simp [fieldMatches] at hhead
      | strs ss => simp [fieldMatches] at hhead
      | strss sss => simp [fieldMatches] at hhead
      | bytes bs => simp [fieldMatches] at hhead

/-- C6.  For every record, every byte order, and every matching argument
list of representable values, `unpack (pack args)` restores `args`
exactly, and the packed bytes have exactly the record's packed size. -/
theorem claim_C6 (s : Structure) (bo : ByteOrder) (args : List PyVal)
    (h : argsMatch s args = true) :
    ∃ bs, s.pack bo args = .ok bs ∧ bs.length = structSize s ∧
      s.unpack bo bs = .ok args := by
  have hm : s.fields.length = args.length ∧
      ∀ p ∈ s.fields.zip args, fieldMatches p.1 p.2 = true := by
    simpa [argsMatch, Bool.and_eq_true, decide_eq_true_eq, List.all_eq_true]
      using h
  obtain ⟨hflen, hfr⟩ := flatten_spec s.fields args hm.1 hm.2
  obtain ⟨bs, hpack, hlen, hdec⟩ := packFlat_roundtrip bo (structFmts s)
    (flattenArgs args s.fields) hflen.symm hfr
  refine ⟨bs, hpack, hlen, ?_⟩
  rw [Structure.unpack, if_pos (show bs.length = structSize s from hlen)]
  have hd := hdec []
  rw [List.append_nil] at hd
  rw [hd, unflatten_flatten s.fields args hm.1 hm.2]

set_option maxRecDepth 4000 in
/-- C6 witness: `BinHeader1` in big-endian order at boundary values —
`h` minimum, `l` maximum, `h` maximum. -/
theorem claim_C6_witness :
    argsMatch BinHeader1 [.int (-32768), .int 2147483647, .int 32767] = true ∧
      ∃ bs,
        BinHeader1.pack ByteOrder.big
            [.int (-32768), .int 2147483647, .int 32767] = .ok bs ∧
          bs.length = structSize BinHeader1 ∧
          BinHeader1.unpack ByteOrder.big bs =
            .ok [.int (-32768), .int 2147483647, .int 32767] :=
  ⟨by decide, claim_C6 BinHeader1 ByteOrder.big _ (by decide)⟩

/-! ### Pipeline inversion (for the claims about `loadibw` runs) -/

/-- `dictGetInt` succeeds exactly on an integer binding. -/
theorem dictGetInt_ok {d : AList} {k : String} {v : Int} :
    dictGetInt d k = .ok v ↔ dictGet d k = some (.int v) := by
  unfold dictGetInt
  cases hd : dictGet d k with
  | none => simp
  | some pv => cases pv <;> simp

/-- `dictGetInts` succeeds exactly on an integer-array binding. -/
theorem dictGetInts_ok {d : AList} {k : String} {vs : List Int} :
    dictGetInts d k = .ok vs ↔ dictGet d k = some (.ints vs) := by
  unfold dictGetInts
  cases hd : dictGet d k with
  | none => simp
  | some pv => cases pv <;> simp

/-- `dictGetBytes` on a missing key is a `KeyError`. -/
theorem dictGetBytes_none {d : AList} {k : String} (h : dictGet d k = none) :
    dictGetBytes d k = .error (.keyError k) := by
  unfold dictGetBytes
  rw [h]

/-- A successful `unpack_dict_from` yields the zipped field dictionary. -/
theorem unpack_dict_from_inv {s : Structure} {bo : ByteOrder}
    {buffer : List Nat} {offset : Nat} {d : AList}
    (h : s.unpack_dict_from bo buffer offset = .ok d) :
    ∃ args, d = structDict s args := by
  rw [Structure.unpack_dict_from, exceptBind_ok] at h
  obtain ⟨args, _, h⟩ := h
  exact ⟨args, (Except.ok.inj h).symm⟩

/-- A successful version-2 post-data pass only adds the `note` binding. -/
theorem postData2_inv {strict : Bool} {bin bin2 : AList}
    {f f' : List Nat} {w : List String}
    (h : postData2 strict bin f = .ok (bin2, w, f')) :
    ∃ x, bin2 = dictSet bin "note" (.str x) := by
  rw [postData2] at h
  rcases hp : pyRead 16 f with ⟨pad, f1⟩
  rw [hp] at h
  dsimp only at h
  rw [exceptBind_ok] at h
  obtain ⟨warns, _, h⟩ := h
  rw [exceptBind_ok] at h
  obtain ⟨ns, _, h⟩ := h
  rcases hn : pyRead ns f1 with ⟨nb, f2⟩
  rw [hn] at h
  dsimp only at h
  exact ⟨pyStrip nb, congrArg (fun t => t.1) (Except.ok.inj h).symm⟩

/-- A successful version-3 post-data pass only adds the `note` and
`formula` bindings. -/
theorem postData3_inv {strict : Bool} {bin bin2 : AList}
    {f f' : List Nat} {w : List String}
    (h : postData3 strict bin f = .ok (bin2, w, f')) :
    ∃ x y, bin2 = dictSet (dictSet bin "note" (.str x)) "formula" (.str y) := by
  rw [postData3] at h
  rcases hp : pyRead 16 f with ⟨pad, f1⟩
  rw [hp] at h
  dsimp only at h
  rw [exceptBind_ok] at h
  obtain ⟨warns, _, h⟩ := h
  rw [exceptBind_ok] at h
  obtain ⟨ns, _, h⟩ := h
  rcases hn : pyRead ns f1 with ⟨nb, f2⟩
  rw [hn] at h
  dsimp only at h
  rw [exceptBind_ok] at h
  obtain ⟨fs, _, h⟩ := h
  rcases hf : pyRead fs f2 with ⟨fb, f3⟩
  rw [hf] at h
  dsimp only at h
  exact ⟨pyStrip nb, pyStrip fb,
    congrArg (fun t => t.1) (Except.ok.inj h).symm⟩

/-- `mkNdArray` returns an array with exactly the requested shape. -/
theorem mkNdArray_shape {shape : List Int} {itemsize : Nat}
    {buffer : List Nat} {a : NdArray} (h : mkNdArray shape itemsize buffer = .ok a) :
    a.shape = shape := by
  rw [mkNdArray] at h
  split at h
  · exact absurd h (by simp)
  · split at h
    · exact absurd h (by simp)
    · rw [← Except.ok.inj h]

/-- `dataStep` materializes the array with the requested shape. -/
theorem dataStep_shape {b f2 : List Nat} {tail : Nat}
    {waveDataSize npnts : Int} {shape1 : List Int} {itemsize : Nat}
    {arr : NdArray} {f3 : List Nat}
    (h : dataStep b f2 tail waveDataSize npnts shape1 itemsize = .ok (arr, f3)) :
    arr.shape = shape1 := by
  rw [dataStep] at h
  split at h
  · rw [exceptBind_ok] at h
    obtain ⟨a, ha, h⟩ := h
    obtain rfl : a = arr := congrArg (fun t => t.1) (Except.ok.inj h)
    exact mkNdArray_shape ha
  · rcases hr : pyRead (waveDataSize - (tail : Int)) f2 with ⟨readB, f4⟩
    rw [hr] at h
    dsimp only at h
    split at h
    · exact absurd h (by simp)
    · rw [exceptBind_ok] at h
      obtain ⟨a, ha, h⟩ := h
      obtain rfl : a = arr := congrArg (fun t => t.1) (Except.ok.inj h)
      exact mkNdArray_shape ha

/-- On a nonzero type code `typeStep` keeps the incoming shape. -/
theorem typeStep_shape {typ waveDataSize npnts : Int} {shape0 shape1 : List Int}
    {itemsize : Nat} (htyp : typ ≠ 0)
    (h : typeStep typ waveDataSize npnts shape0 = .ok (shape1, itemsize)) :
    shape1 = shape0 := by
  rw [typeStep, if_neg htyp] at h
  split at h
  · exact absurd h (by simp)
  · split at h
    · exact (congrArg (fun t => t.1) (Except.ok.inj h)).symm
    · exact absurd h (by simp)

/-- `shapeStep` on version 5 filters the positive extents of `nDim`; on
any other version it is the single-dimension point count. -/
theorem shapeStep_inv {version : Int} {wave_info : AList} {npnts : Int}
    {shape0 : List Int}
    (h : shapeStep version wave_info npnts = .ok shape0) :
    (version = 5 → ∃ nDim, dictGet wave_info "nDim" = some (.ints nDim) ∧
        shape0 = pyShapeFilter nDim) ∧
      (version ≠ 5 → shape0 = [npnts]) := by
  constructor
  · intro h5
    rw [shapeStep, if_pos h5, exceptBind_ok] at h
    obtain ⟨nDim, hn, h⟩ := h
    exact ⟨nDim, dictGetInts_ok.mp hn, (Except.ok.inj h).symm⟩
  · intro h5
    rw [shapeStep, if_neg h5] at h
    exact (Except.ok.inj h).symm

/-- A successful text split fixes the string count to the product of the
positive `nDim` extents (the discarded `reshape` validates it). -/
theorem textSplitPhase_inv {bin_info wave_info : AList} {arr : NdArray}
    {ss : List String} (h : textSplitPhase bin_info wave_info arr = .ok ss) :
    ∃ nDim, dictGet wave_info "nDim" = some (.ints nDim) ∧
      (ss.length : Int) = shapeProd (pyShapeFilter nDim) := by
  rw [textSplitPhase] at h
  rw [exceptBind_ok] at h
  obtain ⟨sIdx, _, h⟩ := h
  dsimp only at h
  rw [exceptBind_ok] at h
  obtain ⟨strings, _, h⟩ := h
  rw [exceptBind_ok] at h
  obtain ⟨nDim, hn, h⟩ := h
  split at h
  · rename_i hc
    obtain rfl : strings = ss := Except.ok.inj h
    exact ⟨nDim, dictGetInts_ok.mp hn, hc⟩
  · exact absurd h (by simp)

/-- A failed `sIndices` lookup makes the text split fail. -/
theorem textSplitPhase_no_sIndices {bin_info wave_info : AList}
    {arr : NdArray} (h : dictGet bin_info "sIndices" = none) {ss : List String} :
    textSplitPhase bin_info wave_info arr ≠ .ok ss := by
  intro hok
  rw [textSplitPhase, exceptBind_ok] at hok
  obtain ⟨bs, hbs, _⟩ := hok
  rw [dictGetBytes_none h] at hbs
  exact absurd hbs (by simp)

/-- Inversion of a successful `loadWithVersion` run into its pipeline
steps. -/
theorem loadWithVersion_inv {strict : Bool} {version : Int}
    {byteOrder : ByteOrder} {b0 f1 : List Nat} {r : LoadResult}
    (h : loadWithVersion strict version byteOrder b0 f1 = .ok r) :
    ∃ bin_struct wave_struct checkSumSize more f2 bin_info wave_info wfmSize
      tailN wds typ npnts shape0 shape1 isz arr f3 bin2 warns f4,
      version_structs version byteOrder =
          .ok (bin_struct, wave_struct, checkSumSize) ∧
        pyRead ((structSize bin_struct + structSize wave_struct : Int) -
            (structSize BinHeaderCommon : Int)) f1 = (more, f2) ∧
        bin_struct.unpack_dict_from byteOrder (b0 ++ more) 0 = .ok bin_info ∧
        wave_struct.unpack_dict_from byteOrder (b0 ++ more)
            (structSize bin_struct) = .ok wave_info ∧
        dictGetInt bin_info "wfmSize" = .ok wfmSize ∧
        tailSize version wfmSize wave_struct = .ok (tailN, wds) ∧
        dictGetInt wave_info "type" = .ok typ ∧
        dictGetInt wave_info "npnts" = .ok npnts ∧
        shapeStep version wave_info npnts = .ok shape0 ∧
        typeStep typ wds npnts shape0 = .ok (shape1, isz) ∧
        dataStep (b0 ++ more) f2 tailN wds npnts shape1 isz = .ok (arr, f3) ∧
        postDataStep strict version typ bin_info f3 = .ok (bin2, warns, f4) ∧
        ((typ = 0 ∧ ∃ strings, textSplitPhase bin2 wave_info arr = .ok strings ∧
            r = ⟨.strings strings, bin2, wave_info, warns⟩) ∨
          (typ ≠ 0 ∧ r = ⟨.numeric arr, bin2, wave_info, warns⟩)) := by
  rw [loadWithVersion] at h
  rw [exceptBind_ok] at h
  obtain ⟨vsc, hvs, h⟩ := h
  obtain ⟨bin_struct, wave_struct, checkSumSize⟩ := vsc
  dsimp only at h
  rw [exceptBind_ok] at h
  obtain ⟨c, hc, h⟩ := h
  rw [exceptBind_ok] at h
  obtain ⟨u, hu, h⟩ := h
  rw [exceptBind_ok] at h
  obtain ⟨bin_info, hbin, h⟩ := h
  rw [exceptBind_ok] at h
  obtain ⟨wave_info, hwave, h⟩ := h
  rw [exceptBind_ok] at h
  obtain ⟨wfmSize, hwfm, h⟩ := h
  rw [exceptBind_ok] at h
  obtain ⟨tw, htail, h⟩ := h
  obtain ⟨tailN, wds⟩ := tw
  dsimp only at h
  rw [exceptBind_ok] at h
  obtain ⟨typ, htyp, h⟩ := h
  rw [exceptBind_ok] at h
  obtain ⟨npnts, hnp, h⟩ := h
  rw [exceptBind_ok] at h
  obtain ⟨shape0, hshape, h⟩ := h
  rw [exceptBind_ok] at h
  obtain ⟨si, htype, h⟩ := h
  obtain ⟨shape1, isz⟩ := si
  dsimp only at h
  rw [exceptBind_ok] at h
  obtain ⟨af, hdata, h⟩ := h
  obtain ⟨arr, f3⟩ := af
  dsimp only at h
  rw [exceptBind_ok] at h
  obtain ⟨bwf, hpost, h⟩ := h
  obtain ⟨bin2, warns, f4⟩ := bwf
  dsimp only at h
  refine ⟨bin_struct, wave_struct, checkSumSize,
    (pyRead ((structSize bin_struct + structSize wave_struct : Int) -
      (structSize BinHeaderCommon : Int)) f1).1,
    (pyRead ((structSize bin_struct + structSize wave_struct : Int) -
      (structSize BinHeaderCommon : Int)) f1).2,
    bin_info, wave_info, wfmSize, tailN, wds, typ, npnts, shape0, shape1, isz,
    arr, f3, bin2, warns, f4, hvs, rfl, hbin, hwave, hwfm, htail, htyp, hnp,
    hshape, htype, hdata, hpost, ?_⟩
  by_cases ht : typ = 0
  · rw [if_pos ht] at h
    rw [exceptBind_ok] at h
    obtain ⟨strings, hsplit, h⟩ := h
    exact Or.inl ⟨ht, strings, hsplit, (Except.ok.inj h).symm⟩
  · rw [if_neg ht] at h
    exact Or.inr ⟨ht, (Except.ok.inj h).symm⟩

/-- C10.  A file of version 1, 2 or 3 whose wave type code is 0 (a text
wave) never decodes to a result: `sIndices` is populated only on the
version-5 path, yet the splitter reads it unconditionally whenever the
type code is 0, so no successful decode of such a file exists. -/
theorem claim_C10 (native : ByteOrder) (strict : Bool) (file : List Nat)
    (vi : VersionInfo) (r : LoadResult)
    (hv : readVersion native file = .ok vi)
    (hver : vi.version = 1 ∨ vi.version = 2 ∨ vi.version = 3)
    (hr : loadibw native strict file = .ok r) :
    dictGet r.wave_info "type" ≠ some (.int 0) := by
  rw [loadibw, exceptBind_ok] at hr
  obtain ⟨vi', hv', hr⟩ := hr
  rw [hv] at hv'
  obtain rfl : vi = vi' := Except.ok.inj hv'
  obtain ⟨bin_struct, wave_struct, css, more, f2, bin_info, wave_info, wfmSize,
    tailN, wds, typ, npnts, shape0, shape1, isz, arr, f3, bin2, warns, f4,
    hvs, hmore, hbin, hwave, hwfm, htail, htyp, hnp, hshape, htype, hdata,
    hpost, hfinal⟩ := loadWithVersion_inv hr
  intro hty0
  have hwi : r.wave_info = wave_info := by
    rcases hfinal with ⟨_, _, _, rfl⟩ | ⟨_, rfl⟩ <;> rfl
  rw [hwi] at hty0
  have htypeq : typ = 0 := by
    have h2 := (dictGetInt_ok.mp htyp).symm.trans hty0
    simpa using h2
  rcases hfinal with ⟨ht0, strings, hsplit, hre⟩ | ⟨htne, _⟩
  swap
  · exact htne htypeq
  obtain ⟨args, hargs⟩ := unpack_dict_from_inv hbin
  have hnone : dictGet bin2 "sIndices" = none := by
    rcases hver with h1 | h2 | h3
    · have hv1 : version_structs vi.version vi.byteOrder =
          .ok (BinHeader1, WaveHeader2,
            structSize BinHeader1 + structSize WaveHeader2) := by
        rw [h1]
        norm_num [version_structs]
      have hbs : bin_struct = BinHeader1 :=
        (congrArg (fun t => t.1) (Except.ok.inj (hv1.symm.trans hvs))).symm
      rw [h1, postDataStep, if_pos rfl] at hpost
      obtain rfl : bin_info = bin2 :=
        congrArg (fun t => t.1) (Except.ok.inj hpost)
      rw [hargs, hbs]
      exact dictGet_zip_none _ args _ (by decide)
    · have hv2 : version_structs vi.version vi.byteOrder =
          .ok (BinHeader2, WaveHeader2,
            structSize BinHeader2 + structSize WaveHeader2) := by
        rw [h2]
        norm_num [version_structs]
      have hbs : bin_struct = BinHeader2 :=
        (congrArg (fun t => t.1) (Except.ok.inj (hv2.symm.trans hvs))).symm
      rw [h2, postDataStep, if_neg (by decide), if_pos rfl] at hpost
      obtain ⟨x, rfl⟩ := postData2_inv hpost
      rw [dictGet_dictSet_ne _ _ _ _ (by decide), hargs, hbs]
      exact dictGet_zip_none _ args _ (by decide)
    · have hv3 : version_structs vi.version vi.byteOrder =
          .ok (BinHeader3, WaveHeader2,
            structSize BinHeader3 + structSize WaveHeader2) := by
        rw [h3]
        norm_num [version_structs]
      have hbs : bin_struct = BinHeader3 :=
        (congrArg (fun t => t.1) (Except.ok.inj (hv3.symm.trans hvs))).symm
      rw [h3, postDataStep, if_neg (by decide), if_neg (by decide),
        if_pos rfl] at hpost
      obtain ⟨x, y, rfl⟩ := postData3_inv hpost
      rw [dictGet_dictSet_ne _ _ _ _ (by decide),
        dictGet_dictSet_ne _ _ _ _ (by decide), hargs, hbs]
      exact dictGet_zip_none _ args _ (by decide)
  exact textSplitPhase_no_sIndices hnone hsplit

set_option maxRecDepth 100000 in
/-- C10 witness: the concrete version-1 sample file decodes successfully
(its type code is 2), so the theorem applies to it with a true conclusion. -/
theorem claim_C10_witness :
    ∃ vi r, readVersion ByteOrder.little exV1File = .ok vi ∧
      (vi.version = 1 ∨ vi.version = 2 ∨ vi.version = 3) ∧
      loadibw ByteOrder.little true exV1File = .ok r ∧
      dictGet r.wave_info "type" ≠ some (.int 0) := by
  refine ⟨_, _, rfl, Or.inl rfl, rfl, ?_⟩
  exact claim_C10 ByteOrder.little true exV1File _ _ rfl (Or.inl rfl) rfl

set_option maxRecDepth 100000 in
/-- C4 counterexample.  The concrete version-5 sample file `exV5File` has
dimension extents `[1, 0, 2, 0]` — a positive extent after a zero one —
and decodes successfully to an array of shape `[1, 2]`, not the
leading-run shape `[1]` the claim requires. -/
theorem claim_C4_counterexample :
    (loadibw ByteOrder.little true exV5File).map
        (fun r => (pyDataShape r.data, dictGet r.wave_info "nDim")) =
      .ok ([1, 2], some (.ints [1, 0, 2, 0])) ∧
      claimShapeV5 [1, 0, 2, 0] = [1] ∧ ([1, 2] : List Int) ≠ [1] := by
  refine ⟨by rfl, by decide, by decide⟩

/-- C4 (amended).  For every successful decode: a version-5 numeric wave's
shape is the list of all positive `nDim` extents in order (non-positive
extents are skipped rather than terminating the list), `[0]` when none is
positive; a version-1/2/3 numeric wave's shape is the point count; a text
wave's result is a one-dimensional string array whose length equals the
product of the positive-extent shape (validated by the discarded
`reshape`). -/
theorem claim_C4_amended (native : ByteOrder) (strict : Bool)
    (file : List Nat) (vi : VersionInfo) (r : LoadResult)
    (hv : readVersion native file = .ok vi)
    (hr : loadibw native strict file = .ok r) :
    (vi.version = 5 → ∀ arr, r.data = .numeric arr →
        ∃ nDim, dictGet r.wave_info "nDim" = some (.ints nDim) ∧
          arr.shape = pyShapeFilter nDim) ∧
      ((vi.version = 1 ∨ vi.version = 2 ∨ vi.version = 3) →
        ∀ arr, r.data = .numeric arr →
          ∃ np, dictGet r.wave_info "npnts" = some (.int np) ∧
            arr.shape = [np]) ∧
      (∀ ss, r.data = .strings ss →
        ∃ nDim, dictGet r.wave_info "nDim" = some (.ints nDim) ∧
          (ss.length : Int) = shapeProd (pyShapeFilter nDim)) := by
  rw [loadibw, exceptBind_ok] at hr
  obtain ⟨vi', hv', hr⟩ := hr
  rw [hv] at hv'
  obtain rfl : vi = vi' := Except.ok.inj hv'
  obtain ⟨bin_struct, wave_struct, css, more, f2, bin_info, wave_info, wfmSize,
    tailN, wds, typ, npnts, shape0, shape1, isz, arr, f3, bin2, warns, f4,
    hvs, hmore, hbin, hwave, hwfm, htail, htyp, hnp, hshape, htype, hdata,
    hpost, hfinal⟩ := loadWithVersion_inv hr
  refine ⟨?_, ?_, ?_⟩
  · intro h5 arr' hdat
    rcases hfinal with ⟨_, strings, _, hre⟩ | ⟨htne, hre⟩
    · rw [hre] at hdat
      exact absurd hdat (by simp)
    · rw [hre] at hdat
      obtain rfl : arr = arr' := by simpa using hdat
      obtain ⟨nDim, hdict, hsh0⟩ := (shapeStep_inv hshape).1 h5
      refine ⟨nDim, by rw [hre]; exact hdict, ?_⟩
      rw [dataStep_shape hdata, typeStep_shape htne htype, hsh0]
  · intro hver arr' hdat
    rcases hfinal with ⟨_, strings, _, hre⟩ | ⟨htne, hre⟩
    · rw [hre] at hdat
      exact absurd hdat (by simp)
    · rw [hre] at hdat
      obtain rfl : arr = arr' := by simpa using hdat
      have h5 : vi.version ≠ 5 := by
        rcases hver with h | h | h <;> rw [h] <;> decide
      have hsh0 := (shapeStep_inv hshape).2 h5
      refine ⟨npnts, by rw [hre]; exact dictGetInt_ok.mp hnp, ?_⟩
      rw [dataStep_shape hdata, typeStep_shape htne htype, hsh0]
  · intro ss hdat
    rcases hfinal with ⟨_, strings, hsplit, hre⟩ | ⟨htne, hre⟩
    · rw [hre] at hdat
      obtain rfl : strings = ss := by simpa using hdat
      obtain ⟨nDim, hdict, hlen⟩ := textSplitPhase_inv hsplit
      exact ⟨nDim, by rw [hre]; exact hdict, hlen⟩
    · rw [hre] at hdat
      exact absurd hdat (by simp)

set_option maxRecDepth 100000 in
/-- C4 witness: the amended claim applied to the concrete version-5
sample file. -/
theorem claim_C4_amended_witness :
    ∃ vi r, readVersion ByteOrder.little exV5File = .ok vi ∧
      loadibw ByteOrder.little true exV5File = .ok r ∧
      (vi.version = 5 → ∀ arr, r.data = .numeric arr →
        ∃ nDim, dictGet r.wave_info "nDim" = some (.ints nDim) ∧
          arr.shape = pyShapeFilter nDim) := by
  refine ⟨_, _, rfl, rfl, ?_⟩
  exact (claim_C4_amended ByteOrder.little true exV5File _ _ rfl rfl).1

end Igor
